import Mathlib

/-!
Verification development for an excerpt of the satpy repository.

The excerpt contains the VIIRS NOAA enterprise EDR reader
(src/satpy/readers/viirs_edr.py) and the test suite of the parallax
correction modifier (src/satpy/tests/modifier_tests/test_parallax.py).

The first half of this file is a shallow embedding of the relevant
code:

* namespace ViirsEdr embeds the file handlers of viirs_edr.py.
  Array values are rationals (the float data of the NetCDF files),
  masked / NaN cells are None, and two-dimensional arrays are lists
  of rows.  Metadata dictionaries become structures with optional
  fields, a missing key being None; a Python KeyError is modelled by
  an Option-valued function returning None.
* namespace Parallax embeds the parallax-correction geometry.  The
  module satpy/modifiers/parallax.py itself is not among the source
  files (only its tests are), so those definitions are modelled from
  the specification text, as their doc comments state.

The second half proves the theorems for the individual claims.
-/

namespace ViirsEdr

/-- Value of the attribute flag_meanings: either the raw string from the
file or the list produced by decoding (splitting on spaces). -/
inductive FlagMeanings where
  | str (s : String)
  | strList (l : List String)
deriving DecidableEq

/-- Embedding of an xarray DataArray as used by viirs_edr.py: the (two
dimensional) data grid, cells being None when masked/NaN, together with
the attributes the reader reads or writes (attrs.get of a missing key is
None). -/
structure DataArr where
  data : List (List (Option ℚ))
  units : Option String := none
  standard_name : Option String := none
  valid_range : Option (ℚ × ℚ) := none
  valid_min : Option ℚ := none
  valid_max : Option ℚ := none
  coordinates : Option (String × String) := none
  flag_meanings : Option FlagMeanings := none
  platform_name : Option String := none
  sensor : Option String := none
  rows_per_scan : Option Nat := none
deriving DecidableEq

/-- Embedding of a dataset-information dictionary (the YAML-configured
metadata passed to get_dataset / available_datasets, or built by
_dynamic_variables_from_file).  Optional fields are None when the key is
absent. -/
structure DsInfo where
  name : String
  file_type : String
  file_key : Option String := none
  resolution : Option Nat := none
  coordinates : Option (String × String) := none
  standard_name : Option String := none
  units : Option String := none
  valid_range : Option (ℚ × ℚ) := none
deriving DecidableEq

/-- Embedding of a NetCDF variable as listed by self.nc.variables for
_dynamic_variables_from_file: its name, number of dimensions and number
of columns (shape[1]). -/
structure NcVar where
  name : String
  ndim : Nat
  ncols : Nat
deriving DecidableEq

/-- M_COLS from viirs_edr.py. -/
def M_COLS : Nat := 3200

/-- Dictionary lookup self.nc[key]; None models a Python KeyError. -/
def ncLookup (nc : List (String × DataArr)) (key : String) : Option DataArr :=
  (nc.find? (fun p => p.1 == key)).map (fun p => p.2)

/-- Uppercasing of a string, modelling str.upper() of the platform
shortname (character-wise uppercase of the data). -/
def upperStr (s : String) : String := String.mk (s.data.map Char.toUpper)

/-- Lowercasing of a string, modelling str.lower() used on variable
names in _dynamic_variables_from_file. -/
def lowerStr (s : String) : String := String.mk (s.data.map Char.toLower)

/-- Occurrence of pat as a contiguous sublist, modelling the Python
substring test pat in s. -/
def occursIn (pat : List Char) : List Char → Bool
  | [] => pat.isPrefixOf []
  | c :: cs => pat.isPrefixOf (c :: cs) || occursIn pat cs

/-- Substring test sub in s for strings. -/
def containsStr (s sub : String) : Bool := occursIn sub.data s.data

/-- The platform dictionary of VIIRSJRRFileHandler.platform_name. -/
def platformDict : List (String × String) :=
  [("NPP", "Suomi-NPP"),
   ("JPSS-1", "NOAA-20"),
   ("J01", "NOAA-20"),
   ("JPSS-2", "NOAA-21"),
   ("J02", "NOAA-21")]

/-- VIIRSJRRFileHandler.platform_name: look the uppercased platform
shortname up in the platform dictionary.  None models the KeyError
raised for an unknown shortname. -/
def platformName (platform_shortname : String) : Option String :=
  (platformDict.find? (fun p => p.1 == upperStr platform_shortname)).map (fun p => p.2)

/-- VIIRSJRRFileHandler.rows_per_scans: 16 rows per scan when the array
has M_COLS columns (M-band resolution), else 32.  shape[1] of a
two-dimensional array is the length of its first row. -/
def rowsPerScans (da : DataArr) : Nat :=
  if (da.data.head?.map List.length).getD 0 = M_COLS then 16 else 32

/-- Elementwise data_arr.where(valid_range[0] <= data_arr <= valid_range[1]):
values outside the closed range become NaN (None); NaN cells stay NaN
(a comparison with NaN is false). -/
def whereRange (lo hi : ℚ) (data : List (List (Option ℚ))) : List (List (Option ℚ)) :=
  data.map (List.map (fun x? => x?.bind (fun x => if lo ≤ x ∧ x ≤ hi then some x else none)))

/-- VIIRSJRRFileHandler._mask_invalid: resolve the valid range from the
dataset info's valid_range, else the array attribute valid_range, else
the pair (valid_min, valid_max) of array attributes, and mask the data
outside it; with no valid range the array is returned unmodified.  None
models the KeyError raised when valid_min is present but valid_max is
missing. -/
def maskInvalid (info : DsInfo) (da : DataArr) : Option DataArr :=
  let vr0 : Option (ℚ × ℚ) :=
    match info.valid_range with
    | some vr => some vr
    | none => da.valid_range
  match vr0 with
  | some vr => some { da with data := whereRange vr.1 vr.2 da.data }
  | none =>
    match da.valid_min with
    | none => some da
    | some vmin =>
      match da.valid_max with
      | none => none
      | some vmax => some { da with data := whereRange vmin vmax da.data }

/-- VIIRSJRRFileHandler._decode_flag_meanings: a CF-style flag_meanings
string (no newline) is split on spaces into a list. -/
def decodeFlagMeanings (da : DataArr) : DataArr :=
  match da.flag_meanings with
  | some (FlagMeanings.str s) =>
    if !(s.data.contains ('\n' : Char)) then
      { da with flag_meanings := some (FlagMeanings.strList (s.splitOn " ")) }
    else da
  | _ => da

/-- Resolved units info.get("units", data_arr.attrs.get("units")) used by
get_dataset: the configured units, else the units attribute of the file
variable. -/
def resolvedUnits (info : DsInfo) (da : DataArr) : Option String :=
  match info.units with
  | some u => some u
  | none => da.units

/-- Normalized units string of get_dataset: the resolved units, with a
missing or "unitless" value replaced by "1". -/
def normUnits (info : DsInfo) (da : DataArr) : String :=
  match resolvedUnits info da with
  | none => "1"
  | some u => if u = "unitless" then "1" else u

/-- The units-handling lines of get_dataset: multiply the data by 100
when the normalized units are "%" while the file units attribute is "1"
or "unitless", then store the normalized units attribute. -/
def applyUnits (info : DsInfo) (da1 : DataArr) : DataArr :=
  let da2 :=
    if normUnits info da1 = "%" ∧ (da1.units = some "1" ∨ da1.units = some "unitless") then
      { da1 with data := da1.data.map (List.map (Option.map (fun v => v * 100))) }
    else da1
  { da2 with units := some (normUnits info da1) }

/-- The standard_name line of get_dataset: the configured standard_name
overrides the attribute when present. -/
def applyStandardName (info : DsInfo) (da : DataArr) : DataArr :=
  match info.standard_name with
  | some s => { da with standard_name := some s }
  | none => da

/-- The platform_name / sensor / rows_per_scan attribute lines of
get_dataset. -/
def applyPlatform (pname : String) (da : DataArr) : DataArr :=
  { da with platform_name := some pname, sensor := some "viirs",
            rows_per_scan := some (rowsPerScans da) }

/-- The final lines of get_dataset: longitude/latitude arrays have their
coordinates dropped (reset_coords(drop=True)). -/
def dropLonLatCoords (da : DataArr) : DataArr :=
  if da.standard_name = some "longitude" ∨ da.standard_name = some "latitude" then
    { da with coordinates := none }
  else da

/-- VIIRSJRRFileHandler.get_dataset: look the file key up, mask invalid
values, normalize units (missing or unitless becomes "1"; configured "%"
over file units "1"/"unitless" multiplies the data by 100), set the
configured standard_name, decode flag meanings, set platform/sensor/
rows_per_scan attributes, and drop the coordinates of longitude/latitude
arrays.  None models a KeyError along the way. -/
def getDataset (nc : List (String × DataArr)) (platform_shortname : String)
    (info : DsInfo) : Option DataArr := do
  let fk ← info.file_key
  let da0 ← ncLookup nc fk
  let da1 ← maskInvalid info da0
  let da5 := decodeFlagMeanings (applyStandardName info (applyUnits info da1))
  let pn ← platformName platform_shortname
  pure (dropLonLatCoords (applyPlatform pn da5))

/-- Modelled from the spec: BaseFileHandler.file_type_matches, whose
source file (satpy/readers/file_handlers.py) is not part of the excerpt.
The handler is responsible for a dataset exactly when the dataset's
configured file type is the handler's own file type; the method returns
a truthy value then and None otherwise, and available_datasets only
tests the result for None. -/
def fileTypeMatches (handler_file_type ds_file_type : String) : Bool :=
  handler_file_type == ds_file_type

/-- Resolved file key ds_info.get("file_key", ds_info["name"]). -/
def fileKeyOf (info : DsInfo) : String := info.file_key.getD info.name

/-- The loop of VIIRSJRRFileHandler.available_datasets over the
configured datasets, kept faithful to the source: an entry whose
availability was decided by a previous handler is yielded unchanged
(and the loop continues); otherwise, when the file type does not match,
(None, ds_info) is yielded and - the source has no continue statement
here - the (file_key in self.nc, ds_info) entry is yielded as well;
when the file type matches only the membership entry is yielded. -/
def availableConfigured (handler_file_type : String) (nc_keys : List String)
    (configured : List (Option Bool × DsInfo)) : List (Option Bool × DsInfo) :=
  configured.flatMap (fun p =>
    match p.1 with
    | some avail => [(some avail, p.2)]
    | none =>
      if fileTypeMatches handler_file_type p.2.file_type then
        [(some (nc_keys.contains (fileKeyOf p.2)), p.2)]
      else
        [(none, p.2), (some (nc_keys.contains (fileKeyOf p.2)), p.2)])

/-- Substring test "longitude" in var_name.lower() from
_dynamic_variables_from_file. -/
def isLonName (var_name : String) : Bool := containsStr (lowerStr var_name) "longitude"

/-- Substring test "latitude" in var_name.lower() from
_dynamic_variables_from_file. -/
def isLatName (var_name : String) : Bool := containsStr (lowerStr var_name) "latitude"

/-- VIIRSJRRFileHandler._dynamic_variables_from_file: advertise every
two-dimensional file variable that the YAML did not configure (letting
longitude/latitude variables through for renaming), at the resolution
determined by its column count, with dynamic coordinate names; the
coordinates entry of longitude/latitude variables is deleted. -/
def dynamicVariablesFromFile (ftype : String) (handled_var_names : List String)
    (vars : List NcVar) : List (Bool × DsInfo) :=
  let m_lon_name := "longitude_" ++ ftype
  let m_lat_name := "latitude_" ++ ftype
  let i_lon_name := "longitude_i_" ++ ftype
  let i_lat_name := "latitude_i_" ++ ftype
  vars.flatMap (fun v =>
    let is_lon := isLonName v.name
    let is_lat := isLatName v.name
    if handled_var_names.contains v.name && !(is_lon || is_lat) then []
    else if v.ndim ≠ 2 then []
    else
      let res : Nat := if v.ncols = M_COLS then 750 else 375
      let coords := if res = 750 then (m_lon_name, m_lat_name) else (i_lon_name, i_lat_name)
      let base : DsInfo :=
        { file_key := some v.name, file_type := ftype, name := v.name,
          resolution := some res, coordinates := some coords }
      if is_lon then
        [(true,
          { base with
              standard_name := some "longitude",
              units := some "degrees_east",
              name := (if res = 750 then m_lon_name else i_lon_name),
              coordinates := none })]
      else if is_lat then
        [(true,
          { base with
              standard_name := some "latitude",
              units := some "degrees_north",
              name := (if res = 750 then m_lat_name else i_lat_name),
              coordinates := none })]
      else [(true, base)])

/-- VIIRSJRRFileHandler.available_datasets: the loop over the configured
datasets followed by the dynamically discovered file variables (which
are always advertised as available, hence the Some). -/
def availableDatasets (file_type : String) (vars : List NcVar)
    (configured : List (Option Bool × DsInfo)) : List (Option Bool × DsInfo) :=
  availableConfigured file_type (vars.map NcVar.name) configured ++
    (dynamicVariablesFromFile file_type (configured.map (fun p => fileKeyOf p.2))
      vars).map (fun p => (some p.1, p.2))

/-- The _manual_scalings table of VIIRSLSTHandler: variable name,
scale-factor variable name, offset variable name. -/
def manualScalings : List (String × String × String) :=
  [("VLST", ("LST_ScaleFact", "LST_Offset")),
   ("emis_m15", ("LSE_ScaleFact", "LSE_Offset")),
   ("emis_m16", ("LSE_ScaleFact", "LSE_Offset")),
   ("emis_bbe", ("LSE_ScaleFact", "LSE_Offset")),
   ("Satellite_Azimuth_Angle", ("AZI_ScaleFact", "AZI_Offset"))]

/-- The scalar value held by a scale-factor or offset variable (a
zero-dimensional / single-value array); None when the variable does not
hold a single scalar. -/
def scalarOf (da : DataArr) : Option ℚ :=
  match da.data with
  | [[some v]] => some v
  | _ => none

/-- Elementwise data * scale_factor + add_offset (NaN cells stay NaN). -/
def scaleMap (s o : ℚ) (data : List (List (Option ℚ))) : List (List (Option ℚ)) :=
  data.map (List.map (Option.map (fun v => v * s + o)))

/-- Structural-recursion mapM over Option, modelling a Python loop that
can raise (None) at any element. -/
def mapOptList (f : α → Option β) : List α → Option (List β)
  | [] => some []
  | x :: xs => do
    let y ← f x
    let ys ← mapOptList f xs
    pure (y :: ys)

/-- VIIRSLSTHandler._scale_data, run at initialization: every variable
named in _manual_scalings that is present in the file is replaced by
data * scale_factor + add_offset, the factors being read from the
companion variables named in the table; every other variable is kept.
None models the KeyError raised when a companion variable is missing. -/
def scaleData (nc : List (String × DataArr)) : Option (List (String × DataArr)) :=
  mapOptList (fun p =>
    match manualScalings.find? (fun m => m.1 == p.1) with
    | none => some p
    | some m => do
      let sda ← ncLookup nc m.2.1
      let oda ← ncLookup nc m.2.2
      let s ← scalarOf sda
      let o ← scalarOf oda
      pure (p.1, { p.2 with data := scaleMap s o p.2.data })) nc

/-- The per-pixel bad-vegetation-index test of
VIIRSSurfaceReflectanceWithVIHandler._get_veg_index_good_mask, on the
three M-band quality-flag bytes of one pixel.  True means the pixel is
unacceptable. -/
def vegIndexBadPixel (qf1 qf2 qf7 : Nat) : Bool :=
  let has_sun_glint := decide (0 < qf1 &&& 0b11000000)
  let is_cloudy := decide (0 < qf1 &&& 0b00001100)
  let cloud_quality := decide (qf1 &&& 0b00000011 < 0b10)
  let has_snow_or_ice := decide (0 < qf2 &&& 0b00100000)
  let has_cloud_shadow := decide (0 < qf2 &&& 0b00001000)
  let water_mask := qf2 &&& 0b00000111
  let has_water := decide (water_mask ≤ 0b010) || decide (water_mask = 0b101)
  let has_aerosols := decide (0b1000 < qf7 &&& 0b00001100)
  let adjacent_to_cloud := decide (0 < qf7 &&& 0b00000010)
  has_sun_glint || is_cloudy || cloud_quality || has_snow_or_ice ||
    has_cloud_shadow || has_water || has_aerosols || adjacent_to_cloud

/-- numpy repeat(2) along a list: every entry is doubled. -/
def repeatTwice : List α → List α
  | [] => []
  | x :: xs => x :: x :: repeatTwice xs

/-- dask repeat(2, axis=1).repeat(2, axis=0) on a grid: columns doubled
within each row, then rows doubled. -/
def upscaleGrid (g : List (List α)) : List (List α) := repeatTwice (g.map repeatTwice)

/-- Pointwise zipWith on three lists. -/
def zipWith3 (f : α → β → γ → δ) : List α → List β → List γ → List δ
  | a :: as, b :: bs, c :: cs => f a b c :: zipWith3 f as bs cs
  | _, _, _ => []

/-- The M-band bad mask of _get_veg_index_good_mask, from the grids of
the three quality-flag variables. -/
def badMask (qf1 qf2 qf7 : List (List Nat)) : List (List Bool) :=
  zipWith3 (zipWith3 vegIndexBadPixel) qf1 qf2 qf7

/-- VIIRSSurfaceReflectanceWithVIHandler._get_veg_index_good_mask: the
M-band bad mask upscaled by two along each axis to I-band resolution,
then negated. -/
def goodMaskIband (qf1 qf2 qf7 : List (List Nat)) : List (List Bool) :=
  (upscaleGrid (badMask qf1 qf2 qf7)).map (List.map not)

/-- Elementwise data.where(mask): a cell is kept where the mask is true
and becomes NaN (None) where it is false. -/
def applyWhere (data : List (List (Option ℚ))) (mask : List (List Bool)) :
    List (List (Option ℚ)) :=
  List.zipWith (List.zipWith (fun x? g => if g then x? else none)) data mask

/-- VIIRSSurfaceReflectanceWithVIHandler._mask_invalid: the base
valid-range masking, then - only for the NDVI/EVI file keys and only
when vegetation filtering is enabled - the good-vegetation-index mask.
None models a KeyError (missing file_key, or _mask_invalid failing). -/
def maskInvalidVI (filter_veg : Bool) (qf1 qf2 qf7 : List (List Nat))
    (info : DsInfo) (da : DataArr) : Option DataArr := do
  let base ← maskInvalid info da
  let fk ← info.file_key
  if (fk = "NDVI" ∨ fk = "EVI") ∧ filter_veg = true then
    pure { base with data := applyWhere base.data (goodMaskIband qf1 qf2 qf7) }
  else
    pure base

/-- Cell (i, j) of a grid. -/
def get2? (g : List (List α)) (i j : Nat) : Option α :=
  g[i]?.bind (fun row => row[j]?)

end ViirsEdr

namespace Parallax

/-- Modelled from the spec: the Earth radius (in metres) of the
spherical-Earth model used by the parallax-correction geometry of
satpy/modifiers/parallax.py, which is not among the source files. -/
def EARTH_RADIUS : ℝ := 6371000

/-- Triples of reals, the Cartesian vectors of the geometry. -/
abbrev V3 := ℝ × ℝ × ℝ

/-- Dot product on V3. -/
def dot3 (a b : V3) : ℝ := a.1 * b.1 + a.2.1 * b.2.1 + a.2.2 * b.2.2

/-- Scalar multiple on V3. -/
def smul3 (c : ℝ) (a : V3) : V3 := (c * a.1, c * a.2.1, c * a.2.2)

/-- Sum on V3. -/
def add3 (a b : V3) : V3 := (a.1 + b.1, a.2.1 + b.2.1, a.2.2 + b.2.2)

/-- Difference on V3. -/
def sub3 (a b : V3) : V3 := (a.1 - b.1, a.2.1 - b.2.1, a.2.2 - b.2.2)

/-- Unit vector of a longitude/latitude pair on the sphere. -/
noncomputable def lonlat2xyz (lon lat : ℝ) : V3 :=
  (Real.cos lat * Real.cos lon, Real.cos lat * Real.sin lon, Real.sin lat)

/-- Longitude (atan2) of a Cartesian point, via the complex argument. -/
noncomputable def xyz2lon (p : V3) : ℝ :=
  Complex.arg (Complex.ofReal p.1 + Complex.ofReal p.2.1 * Complex.I)

/-- Latitude of a Cartesian point. -/
noncomputable def xyz2lat (p : V3) : ℝ :=
  Real.arcsin (p.2.2 / Real.sqrt (dot3 p p))

/-- Smaller root of the quadratic a t^2 + b t + c. -/
noncomputable def qroot (a b c : ℝ) : ℝ :=
  (-b - Real.sqrt (b ^ 2 - 4 * a * c)) / (2 * a)

/-- Line parameter of the first intersection of the segment from the
satellite S to the surface point X with the sphere of radius r: the
smaller root of the quadratic equation for the squared norm of
S + t (X - S). -/
noncomputable def parallaxT (S X : V3) (r : ℝ) : ℝ :=
  qroot (dot3 (sub3 X S) (sub3 X S)) (2 * dot3 S (sub3 X S)) (dot3 S S - r ^ 2)

/-- Modelled from the spec: forward_parallax of
satpy/modifiers/parallax.py, which is not among the source files.  The
spec describes the algorithm as the "forward ray-intersection of a
satellite view vector with an ellipsoid/terrain height field": the
satellite sits at altitude sat_alt above the surface point
(sat_lon, sat_lat) of a spherical Earth, the observed pixel (lon, lat)
is a surface point, the cloud top is the intersection of the line of
sight from the satellite to that pixel with the sphere at the cloud-top
height (its first crossing, the one nearest the satellite), and the
corrected coordinates are the longitude and latitude of that cloud-top
point. -/
noncomputable def forward_parallax (sat_lon sat_lat sat_alt lon lat height : ℝ) : ℝ × ℝ :=
  let S := smul3 (EARTH_RADIUS + sat_alt) (lonlat2xyz sat_lon sat_lat)
  let X := smul3 EARTH_RADIUS (lonlat2xyz lon lat)
  let t := parallaxT S X (EARTH_RADIUS + height)
  let P := add3 S (smul3 t (sub3 X S))
  (xyz2lon P, xyz2lat P)

/-- Gridded forward_parallax on a cloud-top-height field: a pixel with
height NaN (None, clear sky) yields NaN coordinates, a pixel with a
finite height yields its parallax-corrected coordinates. -/
noncomputable def forwardParallaxGrid (sat_lon sat_lat sat_alt : ℝ)
    (lons lats : List (List ℝ)) (hts : List (List (Option ℝ))) :
    List (List (Option (ℝ × ℝ))) :=
  List.zipWith
    (fun rowll rowh =>
      List.zipWith
        (fun ll h? =>
          Option.map (fun hh => forward_parallax sat_lon sat_lat sat_alt ll.1 ll.2 hh) h?)
        rowll rowh)
    (List.zipWith List.zip lons lats) hts

/-- Modelled from the spec: the effect of ParallaxCorrection of
satpy/modifiers/parallax.py (not among the source files) on the
coordinates of the requested output area, per the spec's "forward
ray-intersection ... then remapping an output grid": each pixel of the
base area whose cloud-top height is defined takes its parallax-corrected
coordinates, and a clear-sky pixel (height NaN) keeps the coordinates of
the requested base area. -/
noncomputable def parallaxCorrectedArea (sat_lon sat_lat sat_alt : ℝ)
    (base : List (List (ℝ × ℝ))) (hts : List (List (Option ℝ))) :
    List (List (ℝ × ℝ)) :=
  List.zipWith
    (List.zipWith (fun ll h? =>
      match h? with
      | none => ll
      | some hh => forward_parallax sat_lon sat_lat sat_alt ll.1 ll.2 hh))
    base hts

/-- Central angle of the near intersection, on the circle of radius d/kk
about the origin, of a line from the point at distance d at angle
nothing: for a line of sight leaving the satellite at angle al from
nadir, arcsin (kk * sin al) - al is the central angle between nadir and
the near intersection of the line with the sphere of radius d / kk. -/
noncomputable def groundAngle (kk al : ℝ) : ℝ := Real.arcsin (kk * Real.sin al) - al

end Parallax

/-! ## Theorems

List-access helper lemmas, then one theorem per claim (witnesses and
counterexamples next to their claims). -/

open ViirsEdr Parallax

namespace ViirsEdr

theorem get2?_mapGrid (f : α → β) (g : List (List α)) (i j : Nat) :
    get2? (g.map (List.map f)) i j = (get2? g i j).map f := by
  unfold get2?
  rw [List.getElem?_map]
  cases g[i]? with
  | none => rfl
  | some row => simp

theorem getElem?_repeatTwice (xs : List α) (i : Nat) :
    (repeatTwice xs)[i]? = xs[i / 2]? := by
  induction xs generalizing i with
  | nil => simp [repeatTwice]
  | cons x xs ih =>
    rw [show repeatTwice (x :: xs) = x :: x :: repeatTwice xs from rfl]
    match i with
    | 0 => simp
    | 1 => simp [show (1 : Nat) / 2 = 0 from rfl]
    | n + 2 =>
      rw [Nat.add_div_right n (by norm_num)]
      simp only [List.getElem?_cons_succ]
      exact ih n

theorem get2?_upscaleGrid (g : List (List α)) (i j : Nat) :
    get2? (upscaleGrid g) i j = get2? g (i / 2) (j / 2) := by
  unfold get2? upscaleGrid
  rw [getElem?_repeatTwice, List.getElem?_map]
  rcases g[i / 2]? with _ | row
  · rfl
  · simp [getElem?_repeatTwice]

theorem getElem?_zipWith3 (f : α → β → γ → δ) (la : List α) (lb : List β) (lc : List γ)
    (i : Nat) :
    (zipWith3 f la lb lc)[i]? =
      la[i]?.bind (fun x => lb[i]?.bind (fun y => lc[i]?.map (f x y))) := by
  induction la generalizing lb lc i with
  | nil => simp [zipWith3]
  | cons x xs ih =>
    cases lb with
    | nil => simp [zipWith3]
    | cons y ys =>
      cases lc with
      | nil => simp [zipWith3]
      | cons z zs =>
        cases i with
        | zero => simp [zipWith3]
        | succ n => simpa [zipWith3] using ih ys zs n

end ViirsEdr

/-- Claim C9: for the five platform shortnames NPP, JPSS-1, J01, JPSS-2
and J02, compared case-insensitively (the shortname is uppercased before
the lookup), platform_name returns Suomi-NPP, NOAA-20, NOAA-20, NOAA-21
and NOAA-21 respectively; any other shortname fails with the plain
dictionary lookup failure (None, the Python KeyError), not with a
reader-specific error. -/
theorem claim_C9 (s : String) :
    (upperStr s = "NPP" → platformName s = some "Suomi-NPP") ∧
    (upperStr s = "JPSS-1" → platformName s = some "NOAA-20") ∧
    (upperStr s = "J01" → platformName s = some "NOAA-20") ∧
    (upperStr s = "JPSS-2" → platformName s = some "NOAA-21") ∧
    (upperStr s = "J02" → platformName s = some "NOAA-21") ∧
    (upperStr s ≠ "NPP" → upperStr s ≠ "JPSS-1" → upperStr s ≠ "J01" →
      upperStr s ≠ "JPSS-2" → upperStr s ≠ "J02" → platformName s = none) := by
  refine ⟨fun h => ?_, fun h => ?_, fun h => ?_, fun h => ?_, fun h => ?_,
    fun h1 h2 h3 h4 h5 => ?_⟩
  · simp only [platformName, h]; rfl
  · simp only [platformName, h]; rfl
  · simp only [platformName, h]; rfl
  · simp only [platformName, h]; rfl
  · simp only [platformName, h]; rfl
  · have hnone : platformDict.find? (fun p => p.1 == upperStr s) = none := by
      rw [List.find?_eq_none]
      intro p hp
      fin_cases hp <;> simp only [beq_iff_eq] <;>
        first
        | exact fun hh => h1 hh.symm
        | exact fun hh => h2 hh.symm
        | exact fun hh => h3 hh.symm
        | exact fun hh => h4 hh.symm
        | exact fun hh => h5 hh.symm
    simp [platformName, hnone]

/-- Witness for claim C9 at the concrete lowercase shortname npp. -/
theorem claim_C9_witness :
    upperStr "npp" = "NPP" ∧ platformName "npp" = some "Suomi-NPP" :=
  ⟨by decide, (claim_C9 "npp").1 (by decide)⟩

/-- Claim C4 (code evaluation at the failing input): for a configured
dataset whose file type does not match the current file handler and
whose availability no previous handler has decided, available_datasets
yields TWO results - (None, ds_info) and then, because the non-matching
branch falls through without a continue, (file_key in self.nc, ds_info)
as well - where the claim (and the method's own docstring and comments)
call for exactly the single result (None, ds_info). -/
theorem claim_C4_eval :
    availableDatasets "jrr_cloudheight" []
        [(none, { name := "smoke_concentration", file_type := "jrr_adp" })] =
      [(none, { name := "smoke_concentration", file_type := "jrr_adp" }),
       (some false, { name := "smoke_concentration", file_type := "jrr_adp" })] := by
  rfl

/-- Claim C8: _mask_invalid resolves the valid range with the precedence
dataset-info valid_range, else array valid_range attribute, else the
pair (valid_min, valid_max) of array attributes; with no range found the
array is returned unmodified, and with a range (lo, hi) every element
strictly outside the closed interval is masked (NaN) and every element
inside is kept unchanged. -/
theorem claim_C8 (info : DsInfo) (da : DataArr) :
    (info.valid_range = none → da.valid_range = none → da.valid_min = none →
      maskInvalid info da = some da) ∧
    (∀ lo hi,
      (info.valid_range = some (lo, hi) ∨
       (info.valid_range = none ∧ da.valid_range = some (lo, hi)) ∨
       (info.valid_range = none ∧ da.valid_range = none ∧
        da.valid_min = some lo ∧ da.valid_max = some hi)) →
      maskInvalid info da = some { da with data := whereRange lo hi da.data } ∧
      ∀ i j, get2? (whereRange lo hi da.data) i j =
        (get2? da.data i j).map (fun x? => x?.bind (fun x =>
          if lo ≤ x ∧ x ≤ hi then some x else none))) := by
  constructor
  · intro h1 h2 h3
    simp [maskInvalid, h1, h2, h3]
  · intro lo hi hcase
    have helem : ∀ i j, get2? (whereRange lo hi da.data) i j =
        (get2? da.data i j).map (fun x? => x?.bind (fun x =>
          if lo ≤ x ∧ x ≤ hi then some x else none)) :=
      fun i j => get2?_mapGrid _ da.data i j
    rcases hcase with h | ⟨h1, h2⟩ | ⟨h1, h2, h3, h4⟩
    · exact ⟨by simp [maskInvalid, h], helem⟩
    · exact ⟨by simp [maskInvalid, h1, h2], helem⟩
    · exact ⟨by simp [maskInvalid, h1, h2, h3, h4], helem⟩

/-- Witness for claim C8 on a concrete array with valid_min/valid_max
attributes: the in-range element is kept, the out-of-range one masked. -/
theorem claim_C8_witness :
    maskInvalid ({ name := "VLST", file_type := "viirs_lst" } : DsInfo)
        ({ data := [[some 5, some 20]], valid_min := some 0, valid_max := some 10 } : DataArr) =
      some { ({ data := [[some 5, some 20]], valid_min := some 0,
                valid_max := some 10 } : DataArr) with
             data := whereRange 0 10 [[some 5, some 20]] } ∧
    (∀ i j, get2? (whereRange 0 10 [[some 5, some 20]]) i j =
      (get2? [[some (5 : ℚ), some 20]] i j).map (fun x? => x?.bind (fun x =>
        if (0 : ℚ) ≤ x ∧ x ≤ 10 then some x else none))) ∧
    whereRange 0 10 [[some 5, some 20]] = [[some 5, none]] := by
  have h := (claim_C8 { name := "VLST", file_type := "viirs_lst" }
    { data := [[some 5, some 20]], valid_min := some 0, valid_max := some 10 }).2 0 10
    (Or.inr (Or.inr ⟨rfl, rfl, rfl, rfl⟩))
  refine ⟨h.1, h.2, ?_⟩
  simp [whereRange]
  norm_num

theorem mapOptList_length (f : α → Option β) (l : List α) (out : List β)
    (h : mapOptList f l = some out) : out.length = l.length := by
  induction l generalizing out with
  | nil =>
    simp only [mapOptList] at h
    cases h
    rfl
  | cons x xs ih =>
    simp only [mapOptList, Option.bind_eq_bind] at h
    cases hfx : f x with
    | none => rw [hfx] at h; simp at h
    | some y =>
      rw [hfx] at h
      cases hrest : mapOptList f xs with
      | none => rw [hrest] at h; simp at h
      | some ys =>
        rw [hrest] at h
        simp only [Option.some_bind, Option.pure_def, Option.some.injEq] at h
        subst h
        simp [ih ys hrest]

theorem mapOptList_getElem? (f : α → Option β) (l : List α) (out : List β)
    (h : mapOptList f l = some out) (i : Nat) : out[i]? = l[i]?.bind f := by
  induction l generalizing out i with
  | nil =>
    simp only [mapOptList] at h
    cases h
    simp
  | cons x xs ih =>
    simp only [mapOptList, Option.bind_eq_bind] at h
    cases hfx : f x with
    | none => rw [hfx] at h; simp at h
    | some y =>
      rw [hfx] at h
      cases hrest : mapOptList f xs with
      | none => rw [hrest] at h; simp at h
      | some ys =>
        rw [hrest] at h
        simp only [Option.some_bind, Option.pure_def, Option.some.injEq] at h
        subst h
        cases i with
        | zero => simp [hfx]
        | succ n => simpa using ih ys hrest n

/-- Claim C5: at initialization VIIRSLSTHandler rescales exactly the
variables listed in _manual_scalings that are present in the file,
replacing each value by value * scale_factor + add_offset with the
factors taken from the companion variables named in the table, and
leaves every other variable in the file unchanged. -/
theorem claim_C5 (nc out : List (String × DataArr)) (h : scaleData nc = some out) :
    out.length = nc.length ∧
    ∀ (i : Nat) (name : String) (da : DataArr), nc[i]? = some (name, da) →
      ((manualScalings.find? (fun m => m.1 == name) = none → out[i]? = some (name, da)) ∧
       (∀ mk sn onm sda oda s o,
          manualScalings.find? (fun m => m.1 == name) = some (mk, sn, onm) →
          ncLookup nc sn = some sda → scalarOf sda = some s →
          ncLookup nc onm = some oda → scalarOf oda = some o →
          out[i]? = some (name, { da with data := scaleMap s o da.data }))) := by
  refine ⟨mapOptList_length _ nc out h, fun i name da hget => ⟨fun hfind => ?_, ?_⟩⟩
  · have := mapOptList_getElem? _ nc out h i
    rw [hget] at this
    simpa [hfind] using this
  · intro mk sn onm sda oda s o hfind hsda hs hoda ho
    have := mapOptList_getElem? _ nc out h i
    rw [hget] at this
    simpa [hfind, hsda, hs, hoda, ho] using this

/-- Witness for claim C5 on a concrete LST file: VLST is rescaled with
LST_ScaleFact 3 and LST_Offset 5 (so the value 2 becomes 11), the
companion variables themselves are left unchanged. -/
theorem claim_C5_witness :
    scaleMap 3 5 [[some (2 : ℚ)]] = [[some 11]] ∧
    [(("VLST" : String), ({ data := scaleMap 3 5 [[some (2 : ℚ)]] } : DataArr)),
     ("LST_ScaleFact", { data := [[some 3]] }),
     ("LST_Offset", { data := [[some 5]] })][0]? =
      some ("VLST", { ({ data := [[some (2 : ℚ)]] } : DataArr) with
                      data := scaleMap 3 5 [[some (2 : ℚ)]] }) := by
  constructor
  · norm_num [scaleMap]
  · exact ((claim_C5
      [("VLST", { data := [[some (2 : ℚ)]] }),
       ("LST_ScaleFact", { data := [[some 3]] }),
       ("LST_Offset", { data := [[some 5]] })]
      [("VLST", { data := scaleMap 3 5 [[some (2 : ℚ)]] }),
       ("LST_ScaleFact", { data := [[some 3]] }),
       ("LST_Offset", { data := [[some 5]] })] rfl).2 0 "VLST"
      { data := [[some (2 : ℚ)]] } rfl).2 "VLST" "LST_ScaleFact" "LST_Offset"
      { data := [[some 3]] } { data := [[some 5]] } 3 5 rfl rfl rfl rfl rfl

theorem maskInvalid_units (info : DsInfo) (da out : DataArr)
    (h : maskInvalid info da = some out) : out.units = da.units := by
  unfold maskInvalid at h
  rcases hvr : info.valid_range with _ | vr <;> rw [hvr] at h
  · rcases hda : da.valid_range with _ | vr2 <;> rw [hda] at h
    · rcases hmn : da.valid_min with _ | vmin <;> rw [hmn] at h
      · cases h; rfl
      · rcases hmx : da.valid_max with _ | vmax <;> rw [hmx] at h
        · cases h
        · cases h; rfl
    · cases h; rfl
  · cases h; rfl

theorem resolvedUnits_congr (info : DsInfo) (da1 da0 : DataArr)
    (hu : da1.units = da0.units) : resolvedUnits info da1 = resolvedUnits info da0 := by
  unfold resolvedUnits
  cases info.units <;> simp [hu]

theorem decodeFlagMeanings_fields (da : DataArr) :
    (decodeFlagMeanings da).units = da.units ∧
    (decodeFlagMeanings da).data = da.data ∧
    (decodeFlagMeanings da).standard_name = da.standard_name := by
  unfold decodeFlagMeanings
  rcases da.flag_meanings with _ | fm
  · exact ⟨rfl, rfl, rfl⟩
  · cases fm
    · dsimp only
      split <;> exact ⟨rfl, rfl, rfl⟩
    · exact ⟨rfl, rfl, rfl⟩

theorem applyUnits_units (info : DsInfo) (da : DataArr) :
    (applyUnits info da).units = some (normUnits info da) := rfl

theorem applyUnits_data (info : DsInfo) (da : DataArr) :
    (applyUnits info da).data =
      (if normUnits info da = "%" ∧ (da.units = some "1" ∨ da.units = some "unitless")
       then da.data.map (List.map (Option.map (fun v => v * 100))) else da.data) := by
  unfold applyUnits
  split <;> rfl

theorem applyStandardName_units (info : DsInfo) (da : DataArr) :
    (applyStandardName info da).units = da.units := by
  unfold applyStandardName
  cases info.standard_name <;> rfl

theorem applyStandardName_data (info : DsInfo) (da : DataArr) :
    (applyStandardName info da).data = da.data := by
  unfold applyStandardName
  cases info.standard_name <;> rfl

theorem applyPlatform_units (pname : String) (da : DataArr) :
    (applyPlatform pname da).units = da.units := rfl

theorem applyPlatform_data (pname : String) (da : DataArr) :
    (applyPlatform pname da).data = da.data := rfl

theorem applyPlatform_standard_name (pname : String) (da : DataArr) :
    (applyPlatform pname da).standard_name = da.standard_name := rfl

theorem dropLonLatCoords_units (da : DataArr) : (dropLonLatCoords da).units = da.units := by
  unfold dropLonLatCoords
  split <;> rfl

theorem dropLonLatCoords_data (da : DataArr) : (dropLonLatCoords da).data = da.data := by
  unfold dropLonLatCoords
  split <;> rfl

theorem dropLonLatCoords_standard_name (da : DataArr) :
    (dropLonLatCoords da).standard_name = da.standard_name := by
  unfold dropLonLatCoords
  split <;> rfl

theorem dropLonLatCoords_lonlat (da : DataArr)
    (h : da.standard_name = some "longitude" ∨ da.standard_name = some "latitude") :
    (dropLonLatCoords da).coordinates = none := by
  unfold dropLonLatCoords
  rw [if_pos h]

/-- Claim C7: get_dataset normalizes units: a resolved units value
(configured units, else the file's units attribute) that is missing or
"unitless" makes the returned units attribute "1"; configured units "%"
over a file units attribute of "1" or "unitless" multiplies every data
value by 100 and sets the units attribute to "%". -/
theorem claim_C7 (nc : List (String × DataArr)) (pn fk : String) (info : DsInfo)
    (da0 out : DataArr)
    (hfk : info.file_key = some fk)
    (hnc : ncLookup nc fk = some da0)
    (hout : getDataset nc pn info = some out) :
    ((resolvedUnits info da0 = none ∨ resolvedUnits info da0 = some "unitless") →
      out.units = some "1") ∧
    (info.units = some "%" → (da0.units = some "1" ∨ da0.units = some "unitless") →
      out.units = some "%" ∧
      ∀ mda, maskInvalid info da0 = some mda →
        out.data = mda.data.map (List.map (Option.map (fun v => v * 100)))) := by
  rcases hm : maskInvalid info da0 with _ | da1
  · rw [getDataset] at hout
    rw [hfk] at hout
    simp only [Option.bind_eq_bind', Option.some_bind'] at hout
    rw [hnc] at hout
    simp only [Option.bind_eq_bind', Option.some_bind'] at hout
    rw [hm] at hout
    simp at hout
  · have hu1 : da1.units = da0.units := maskInvalid_units info da0 da1 hm
    rw [getDataset] at hout
    rw [hfk] at hout
    simp only [Option.bind_eq_bind', Option.some_bind'] at hout
    rw [hnc] at hout
    simp only [Option.bind_eq_bind', Option.some_bind'] at hout
    rw [hm] at hout
    simp only [Option.bind_eq_bind', Option.some_bind'] at hout
    rcases hp : platformName pn with _ | pname <;> rw [hp] at hout
    · simp at hout
    · simp only [Option.bind_eq_bind', Option.some_bind', Option.pure_def,
        Option.some.injEq] at hout
      have hunits : out.units = some (normUnits info da1) := by
        rw [← hout, dropLonLatCoords_units, applyPlatform_units,
          (decodeFlagMeanings_fields _).1, applyStandardName_units, applyUnits_units]
      have hdata : out.data =
          (if normUnits info da1 = "%" ∧ (da1.units = some "1" ∨ da1.units = some "unitless")
           then da1.data.map (List.map (Option.map (fun v => v * 100))) else da1.data) := by
        rw [← hout, dropLonLatCoords_data, applyPlatform_data,
          (decodeFlagMeanings_fields _).2.1, applyStandardName_data, applyUnits_data]
      refine ⟨fun hru => ?_, fun hinfo hda0 => ?_⟩
      · rw [hunits, normUnits, resolvedUnits_congr info da1 da0 hu1]
        rcases hru with hru | hru <;> rw [hru] <;> simp
      · have hnu : normUnits info da1 = "%" := by
          rw [normUnits, resolvedUnits, hinfo]
          simp
        have hcond : normUnits info da1 = "%" ∧
            (da1.units = some "1" ∨ da1.units = some "unitless") :=
          ⟨hnu, by rw [hu1]; exact hda0⟩
        refine ⟨by rw [hunits, hnu], fun mda hmda => ?_⟩
        cases hmda
        rw [hdata, if_pos hcond]

/-- Witness for claim C7: configured units "%" over file units "1"
yields a returned units attribute of "%". -/
theorem claim_C7_witness :
    getDataset [("AOD550", { data := [], units := some "1" })] "npp"
        { name := "aod", file_type := "jrr_aod", file_key := some "AOD550",
          units := some "%" } =
      some { data := [], units := some "%", platform_name := some "Suomi-NPP",
             sensor := some "viirs", rows_per_scan := some 32 } ∧
    ({ data := [], units := some "%", platform_name := some "Suomi-NPP",
       sensor := some "viirs", rows_per_scan := some 32 } : DataArr).units = some "%" := by
  constructor
  · rfl
  · exact ((claim_C7 [("AOD550", { data := [], units := some "1" })] "npp" "AOD550"
      { name := "aod", file_type := "jrr_aod", file_key := some "AOD550", units := some "%" }
      { data := [], units := some "1" }
      { data := [], units := some "%", platform_name := some "Suomi-NPP",
        sensor := some "viirs", rows_per_scan := some 32 }
      rfl rfl rfl).2 rfl (Or.inl rfl)).1

theorem get2?_zipWith (f : α → β → γ) (a : List (List α)) (b : List (List β)) (i j : Nat) :
    get2? (List.zipWith (List.zipWith f) a b) i j =
      (get2? a i j).bind (fun x => (get2? b i j).map (f x)) := by
  unfold get2?
  rw [List.getElem?_zipWith']
  rcases a[i]? with _ | ra
  · rfl
  · rcases b[i]? with _ | rb
    · simp
    · simp only [Option.map_some', Option.some_bind, Option.some.injEq]
      rw [List.getElem?_zipWith']
      cases ra[j]? <;> simp

theorem get2?_badMask (qf1 qf2 qf7 : List (List Nat)) (a b : Nat) :
    get2? (badMask qf1 qf2 qf7) a b =
      (get2? qf1 a b).bind (fun x => (get2? qf2 a b).bind (fun y =>
        (get2? qf7 a b).map (vegIndexBadPixel x y))) := by
  unfold get2? badMask
  rw [getElem?_zipWith3]
  rcases qf1[a]? with _ | r1
  · rfl
  · rcases qf2[a]? with _ | r2
    · simp
    · rcases qf7[a]? with _ | r3
      · simp
      · simp only [Option.some_bind, Option.map_some', Option.some.injEq]
        rw [getElem?_zipWith3]

theorem get2?_goodMaskIband (qf1 qf2 qf7 : List (List Nat)) (i j : Nat) :
    get2? (goodMaskIband qf1 qf2 qf7) i j =
      (get2? (badMask qf1 qf2 qf7) (i / 2) (j / 2)).map not := by
  unfold goodMaskIband
  rw [get2?_mapGrid, get2?_upscaleGrid]

/-- Claim C6: with vegetation filtering enabled, an NDVI or EVI pixel is
masked exactly when its M-band pixel (the I-band mask being the M-band
bad mask upscaled by two along each axis) satisfies one of the listed
quality-flag conditions; any other dataset, or any dataset when
filtering is disabled, receives only the base valid-range masking. -/
theorem claim_C6 (filter_veg : Bool) (qf1 qf2 qf7 : List (List Nat)) (info : DsInfo)
    (da base out : DataArr) (fk : String)
    (hfk : info.file_key = some fk)
    (hbase : maskInvalid info da = some base)
    (hout : maskInvalidVI filter_veg qf1 qf2 qf7 info da = some out) :
    (¬((fk = "NDVI" ∨ fk = "EVI") ∧ filter_veg = true) → out = base) ∧
    (((fk = "NDVI" ∨ fk = "EVI") ∧ filter_veg = true) →
      out.data = applyWhere base.data (goodMaskIband qf1 qf2 qf7) ∧
      (∀ i j x? q1 q2 q7,
        get2? base.data i j = some x? →
        get2? qf1 (i / 2) (j / 2) = some q1 →
        get2? qf2 (i / 2) (j / 2) = some q2 →
        get2? qf7 (i / 2) (j / 2) = some q7 →
        get2? out.data i j = some (if vegIndexBadPixel q1 q2 q7 then none else x?))) ∧
    (∀ q1 q2 q7 : Nat, vegIndexBadPixel q1 q2 q7 = true ↔
      (0 < q1 &&& 0b11000000 ∨ 0 < q1 &&& 0b00001100 ∨ q1 &&& 0b00000011 < 0b10 ∨
       0 < q2 &&& 0b00100000 ∨ 0 < q2 &&& 0b00001000 ∨
       q2 &&& 0b00000111 ≤ 0b010 ∨ q2 &&& 0b00000111 = 0b101 ∨
       0b1000 < q7 &&& 0b00001100 ∨ 0 < q7 &&& 0b00000010)) := by
  have hbits : ∀ q1 q2 q7 : Nat, vegIndexBadPixel q1 q2 q7 = true ↔
      (0 < q1 &&& 0b11000000 ∨ 0 < q1 &&& 0b00001100 ∨ q1 &&& 0b00000011 < 0b10 ∨
       0 < q2 &&& 0b00100000 ∨ 0 < q2 &&& 0b00001000 ∨
       q2 &&& 0b00000111 ≤ 0b010 ∨ q2 &&& 0b00000111 = 0b101 ∨
       0b1000 < q7 &&& 0b00001100 ∨ 0 < q7 &&& 0b00000010) := by
    intro q1 q2 q7
    simp [vegIndexBadPixel, Bool.or_assoc, or_assoc]
  unfold maskInvalidVI at hout
  rw [hbase, hfk] at hout
  simp only [Option.bind_eq_bind', Option.some_bind'] at hout
  split at hout
  case isTrue hcond =>
    simp only [Option.pure_def, Option.some.injEq] at hout
    refine ⟨fun hn => absurd hcond hn, fun _ => ⟨by rw [← hout], ?_⟩, hbits⟩
    intro i j x? q1 q2 q7 hx hq1 hq2 hq7
    rw [← hout]
    show get2? (applyWhere base.data (goodMaskIband qf1 qf2 qf7)) i j = _
    rw [show applyWhere base.data (goodMaskIband qf1 qf2 qf7) =
      List.zipWith (List.zipWith (fun x? g => if g then x? else none)) base.data
        (goodMaskIband qf1 qf2 qf7) from rfl]
    rw [get2?_zipWith, hx, get2?_goodMaskIband, get2?_badMask, hq1, hq2, hq7]
    simp only [Option.some_bind, Option.map_some']
    cases hv : vegIndexBadPixel q1 q2 q7 <;> simp [hv]
  case isFalse hcond =>
    simp only [Option.pure_def, Option.some.injEq] at hout
    exact ⟨fun _ => hout.symm, fun hc => absurd hc hcond, hbits⟩

/-- Witness for claim C6 on a 1x1 M-band grid of acceptable quality
flags and a 2x2 I-band NDVI array. -/
theorem claim_C6_witness :
    get2? (applyWhere [[some 1, some 2], [some 3, some (4 : ℚ)]]
        (goodMaskIband [[3]] [[3]] [[0]])) 0 0 =
      some (if vegIndexBadPixel 3 3 0 then none else some 1) ∧
    vegIndexBadPixel 3 3 0 = false := by
  constructor
  · exact (((claim_C6 true [[3]] [[3]] [[0]]
      { name := "NDVI", file_type := "srf", file_key := some "NDVI" }
      { data := [[some 1, some 2], [some 3, some 4]] }
      { data := [[some 1, some 2], [some 3, some 4]] }
      { data := applyWhere [[some 1, some 2], [some 3, some 4]]
          (goodMaskIband [[3]] [[3]] [[0]]) }
      "NDVI" rfl rfl rfl).2.1 ⟨Or.inl rfl, rfl⟩).2 0 0 (some 1) 3 3 0 rfl rfl rfl rfl)
  · decide

theorem getDataset_shape (nc : List (String × DataArr)) (pn : String) (info : DsInfo)
    (out : DataArr) (h : getDataset nc pn info = some out) :
    ∃ da5 pname, out = dropLonLatCoords (applyPlatform pname da5) := by
  unfold getDataset at h
  rcases hfk : info.file_key with _ | fk <;> rw [hfk] at h
  · simp at h
  · simp only [Option.bind_eq_bind', Option.some_bind'] at h
    rcases hnc : ncLookup nc fk with _ | da0 <;> rw [hnc] at h
    · simp at h
    · simp only [Option.bind_eq_bind', Option.some_bind'] at h
      rcases hm : maskInvalid info da0 with _ | da1 <;> rw [hm] at h
      · simp at h
      · simp only [Option.bind_eq_bind', Option.some_bind'] at h
        rcases hp : platformName pn with _ | pname <;> rw [hp] at h
        · simp at h
        · simp only [Option.bind_eq_bind', Option.some_bind', Option.pure_def,
            Option.some.injEq] at h
          exact ⟨_, _, h.symm⟩

/-- Claim C10: longitude/latitude datasets never carry coordinate
linkage: any array returned by get_dataset whose standard_name is
longitude or latitude has its coordinates dropped, every dynamically
discovered variable is advertised as available (True), variables whose
metadata marks them as longitude/latitude carry no coordinates entry,
and every other dynamically discovered two-dimensional variable is
advertised with the resolution-appropriate dynamic coordinate names. -/
theorem claim_C10 :
    (∀ (nc : List (String × DataArr)) (pn : String) (info : DsInfo) (out : DataArr),
      getDataset nc pn info = some out →
      (out.standard_name = some "longitude" ∨ out.standard_name = some "latitude") →
      out.coordinates = none) ∧
    (∀ (ftype : String) (handled : List String) (vars : List NcVar) (p : Bool × DsInfo),
      p ∈ dynamicVariablesFromFile ftype handled vars →
      p.1 = true ∧
      ((p.2.standard_name = some "longitude" ∨ p.2.standard_name = some "latitude") →
        p.2.coordinates = none) ∧
      (p.2.standard_name = none →
        ∃ v, v ∈ vars ∧ p.2.name = v.name ∧
          p.2.resolution = some (if v.ncols = M_COLS then 750 else 375) ∧
          p.2.coordinates = some (if v.ncols = M_COLS
            then ("longitude_" ++ ftype, "latitude_" ++ ftype)
            else ("longitude_i_" ++ ftype, "latitude_i_" ++ ftype)))) := by
  constructor
  · intro nc pn info out hout hstd
    obtain ⟨da5, pname, rfl⟩ := getDataset_shape nc pn info out hout
    rw [dropLonLatCoords_standard_name] at hstd
    exact dropLonLatCoords_lonlat _ hstd
  · intro ftype handled vars p hp
    unfold dynamicVariablesFromFile at hp
    simp only [List.mem_flatMap] at hp
    obtain ⟨v, hv, hpv⟩ := hp
    split at hpv
    · simp at hpv
    · split at hpv
      · simp at hpv
      · split at hpv
        case isTrue hlon =>
          simp only [List.mem_singleton] at hpv
          subst hpv
          refine ⟨rfl, fun _ => rfl, fun hstd => ?_⟩
          simp at hstd
        · split at hpv
          case isTrue hlat =>
            simp only [List.mem_singleton] at hpv
            subst hpv
            refine ⟨rfl, fun _ => rfl, fun hstd => ?_⟩
            simp at hstd
          case isFalse hlat =>
            simp only [List.mem_singleton] at hpv
            subst hpv
            refine ⟨rfl, fun hstd => ?_, fun _ => ⟨v, hv, rfl, ?_, ?_⟩⟩
            · rcases hstd with hstd | hstd <;> simp at hstd
            · by_cases hc : v.ncols = M_COLS <;> simp [hc]
            · by_cases hc : v.ncols = M_COLS <;> simp [hc]

/-- Witness for claim C10 on a concrete latitude array: the returned
array has its coordinates dropped. -/
theorem claim_C10_witness :
    getDataset
        [("Latitude", { data := [], standard_name := some "latitude",
                        coordinates := some ("lon_c", "lat_c") })] "J01"
        { name := "latitude", file_type := "jrr", file_key := some "Latitude" } =
      some { data := [], units := some "1", standard_name := some "latitude",
             platform_name := some "NOAA-20", sensor := some "viirs",
             rows_per_scan := some 32 } ∧
    ({ data := [], units := some "1", standard_name := some "latitude",
       platform_name := some "NOAA-20", sensor := some "viirs",
       rows_per_scan := some 32 } : DataArr).coordinates = none := by
  constructor
  · rfl
  · exact claim_C10.1
      [("Latitude", { data := [], standard_name := some "latitude",
                      coordinates := some ("lon_c", "lat_c") })] "J01"
      { name := "latitude", file_type := "jrr", file_key := some "Latitude" }
      { data := [], units := some "1", standard_name := some "latitude",
        platform_name := some "NOAA-20", sensor := some "viirs",
        rows_per_scan := some 32 }
      rfl (Or.inr rfl)

namespace Parallax

open Real

theorem qroot_congr {a1 b1 c1 a2 b2 c2 : ℝ} (ha : a1 = a2) (hb : b1 = b2) (hc : c1 = c2) :
    qroot a1 b1 c1 = qroot a2 b2 c2 := by
  rw [ha, hb, hc]

theorem qroot_spec (a b c : ℝ) (ha : 0 < a) (hc : 0 < c) (hf1 : a + b + c < 0) :
    0 < b ^ 2 - 4 * a * c ∧
    a * qroot a b c ^ 2 + b * qroot a b c + c = 0 ∧
    0 < qroot a b c ∧ qroot a b c < 1 := by
  have hb : b < -a - c := by linarith
  have hbneg : b < 0 := by linarith
  have hdisc : 0 < b ^ 2 - 4 * a * c := by
    nlinarith [sq_nonneg (a - c), sq_nonneg (a + b + c),
      mul_pos (show (0 : ℝ) < a + c by linarith) (show (0 : ℝ) < -(a + b + c) by linarith)]
  have hs2 : Real.sqrt (b ^ 2 - 4 * a * c) ^ 2 = b ^ 2 - 4 * a * c :=
    Real.sq_sqrt hdisc.le
  have hs0 : 0 ≤ Real.sqrt (b ^ 2 - 4 * a * c) := Real.sqrt_nonneg _
  have hroot : a * qroot a b c ^ 2 + b * qroot a b c + c = 0 := by
    unfold qroot
    field_simp
    nlinarith [hs2]
  have hslt : Real.sqrt (b ^ 2 - 4 * a * c) < -b := by
    have h1 : b ^ 2 - 4 * a * c < b ^ 2 := by nlinarith [mul_pos ha hc]
    calc Real.sqrt (b ^ 2 - 4 * a * c) < Real.sqrt (b ^ 2) :=
          Real.sqrt_lt_sqrt hdisc.le h1
      _ = |b| := Real.sqrt_sq_eq_abs b
      _ = -b := abs_of_neg hbneg
  have hpos : 0 < qroot a b c := by
    unfold qroot
    apply div_pos (by linarith) (by linarith)
  have hlt1 : qroot a b c < 1 := by
    unfold qroot
    rw [div_lt_one (by linarith)]
    rcases le_or_lt (-b - 2 * a) 0 with hcase | hcase
    · have : 0 < Real.sqrt (b ^ 2 - 4 * a * c) := Real.sqrt_pos.mpr hdisc
      linarith
    · have h2 : (-b - 2 * a) < Real.sqrt (b ^ 2 - 4 * a * c) := by
        rw [Real.lt_sqrt hcase.le]
        nlinarith [mul_neg_of_pos_of_neg ha hf1]
      linarith
  exact ⟨hdisc, hroot, hpos, hlt1⟩

theorem qroot_unique (a b c t0 : ℝ) (ha : 0 < a) (hc : 0 < c) (hf1 : a + b + c < 0)
    (hroot : a * t0 ^ 2 + b * t0 + c = 0) (ht1 : t0 < 1) : t0 = qroot a b c := by
  obtain ⟨hdisc, hq, hqpos, hqlt⟩ := qroot_spec a b c ha hc hf1
  have hs2 : Real.sqrt (b ^ 2 - 4 * a * c) ^ 2 = b ^ 2 - 4 * a * c :=
    Real.sq_sqrt hdisc.le
  have hfac : ∀ t : ℝ, a * t ^ 2 + b * t + c =
      a * (t - qroot a b c) * (t - (-b + Real.sqrt (b ^ 2 - 4 * a * c)) / (2 * a)) := by
    intro t
    unfold qroot
    field_simp
    nlinarith [hs2]
  have htplus : 1 < (-b + Real.sqrt (b ^ 2 - 4 * a * c)) / (2 * a) := by
    by_contra hnot
    push_neg at hnot
    have h1 : a * 1 ^ 2 + b * 1 + c < 0 := by nlinarith
    rw [hfac 1] at h1
    nlinarith [mul_pos ha (show (0 : ℝ) < 1 - qroot a b c by linarith)]
  have h0 : a * (t0 - qroot a b c) * (t0 - (-b + Real.sqrt (b ^ 2 - 4 * a * c)) / (2 * a)) = 0 := by
    rw [← hfac t0, hroot]
  rcases mul_eq_zero.mp h0 with h1 | h1
  · rcases mul_eq_zero.mp h1 with h2 | h2
    · exact absurd h2 ha.ne'
    · linarith [sub_eq_zero.mp h2]
  · have := sub_eq_zero.mp h1
    linarith

theorem dot3_lonlat2xyz (lon lat : ℝ) :
    dot3 (lonlat2xyz lon lat) (lonlat2xyz lon lat) = 1 := by
  unfold dot3 lonlat2xyz
  linear_combination (Real.cos lat) ^ 2 * Real.sin_sq_add_cos_sq lon +
    Real.sin_sq_add_cos_sq lat

theorem dot3_smul3 (a b : ℝ) (v w : V3) :
    dot3 (smul3 a v) (smul3 b w) = a * b * dot3 v w := by
  unfold dot3 smul3
  ring

theorem sub3_smul3 (a b : ℝ) (v : V3) :
    sub3 (smul3 a v) (smul3 b v) = smul3 (a - b) v := by
  unfold sub3 smul3
  simp only [Prod.mk.injEq]
  refine ⟨by ring, by ring, by ring⟩

theorem smul3_smul3 (a b : ℝ) (v : V3) : smul3 a (smul3 b v) = smul3 (a * b) v := by
  unfold smul3
  simp only [Prod.mk.injEq]
  refine ⟨by ring, by ring, by ring⟩

theorem add3_smul3 (a b : ℝ) (v : V3) :
    add3 (smul3 a v) (smul3 b v) = smul3 (a + b) v := by
  unfold add3 smul3
  simp only [Prod.mk.injEq]
  refine ⟨by ring, by ring, by ring⟩

theorem xyz2lon_smul_lonlat (r lon lat : ℝ) (hr : 0 < r * Real.cos lat)
    (hlon : lon ∈ Set.Ioc (-π) π) :
    xyz2lon (smul3 r (lonlat2xyz lon lat)) = lon := by
  unfold xyz2lon smul3 lonlat2xyz
  have hc : (Complex.ofReal (r * (Real.cos lat * Real.cos lon)) +
      Complex.ofReal (r * (Real.cos lat * Real.sin lon)) * Complex.I) =
      (Complex.ofReal (r * Real.cos lat)) *
        (Complex.cos (Complex.ofReal lon) + Complex.sin (Complex.ofReal lon) * Complex.I) := by
    rw [← Complex.ofReal_cos, ← Complex.ofReal_sin]
    push_cast
    ring
  rw [hc]
  exact Complex.arg_mul_cos_add_sin_mul_I hr hlon

theorem xyz2lat_smul_lonlat (r lon lat : ℝ) (hr : 0 < r) (hlat : |lat| ≤ π / 2) :
    xyz2lat (smul3 r (lonlat2xyz lon lat)) = lat := by
  unfold xyz2lat
  have hdot : dot3 (smul3 r (lonlat2xyz lon lat)) (smul3 r (lonlat2xyz lon lat)) = r ^ 2 := by
    rw [dot3_smul3, dot3_lonlat2xyz]
    ring
  rw [hdot, Real.sqrt_sq hr.le]
  show Real.arcsin (r * Real.sin lat / r) = lat
  rw [mul_comm, mul_div_assoc, div_self hr.ne', mul_one]
  exact Real.arcsin_sin (by linarith [(abs_le.mp hlat).1]) (abs_le.mp hlat).2

theorem forward_parallax_at_ssp (sat_lon sat_lat sat_alt height : ℝ)
    (halt : 0 < sat_alt) (hh : -EARTH_RADIUS < height)
    (hlon : sat_lon ∈ Set.Ioc (-π) π) (hlat : |sat_lat| < π / 2) :
    forward_parallax sat_lon sat_lat sat_alt sat_lon sat_lat height = (sat_lon, sat_lat) := by
  have hR : (0 : ℝ) < EARTH_RADIUS := by norm_num [EARTH_RADIUS]
  have hr : 0 < EARTH_RADIUS + height := by
    rw [EARTH_RADIUS] at hh ⊢
    linarith
  have hcl : 0 < Real.cos sat_lat :=
    Real.cos_pos_of_mem_Ioo ⟨by linarith [(abs_lt.mp hlat).1], (abs_lt.mp hlat).2⟩
  set u := lonlat2xyz sat_lon sat_lat with hu_def
  have huu : dot3 u u = 1 := dot3_lonlat2xyz _ _
  have hD : sub3 (smul3 EARTH_RADIUS u) (smul3 (EARTH_RADIUS + sat_alt) u) =
      smul3 (-sat_alt) u := by
    rw [sub3_smul3]
    congr 1
    ring
  have hT : parallaxT (smul3 (EARTH_RADIUS + sat_alt) u) (smul3 EARTH_RADIUS u)
      (EARTH_RADIUS + height) = (sat_alt - height) / sat_alt := by
    unfold parallaxT qroot
    rw [hD, dot3_smul3, dot3_smul3, dot3_smul3, huu]
    have hdisc : (2 * ((EARTH_RADIUS + sat_alt) * -sat_alt * 1)) ^ 2 -
        4 * (-sat_alt * -sat_alt * 1) *
          ((EARTH_RADIUS + sat_alt) * (EARTH_RADIUS + sat_alt) * 1 -
            (EARTH_RADIUS + height) ^ 2) =
        (2 * sat_alt * (EARTH_RADIUS + height)) ^ 2 := by
      ring
    rw [hdisc, Real.sqrt_sq (by positivity)]
    field_simp
    ring
  have hP : add3 (smul3 (EARTH_RADIUS + sat_alt) u)
      (smul3 ((sat_alt - height) / sat_alt) (smul3 (-sat_alt) u)) =
      smul3 (EARTH_RADIUS + height) u := by
    rw [smul3_smul3, add3_smul3]
    congr 1
    field_simp
    ring
  show (xyz2lon _, xyz2lat _) = (sat_lon, sat_lat)
  rw [hT, hD, hP]
  rw [xyz2lon_smul_lonlat _ _ _ (mul_pos hr hcl) hlon,
    xyz2lat_smul_lonlat _ _ _ hr (le_of_lt hlat)]

/-- Claim C1: at the sub-satellite point forward_parallax returns the
longitude and latitude unchanged, for every positive satellite altitude
and every finite cloud height, and the parallax-corrected output area
keeps the coordinates of a sub-satellite pixel of a cloudy scene. -/
theorem claim_C1 (sat_lon sat_lat sat_alt : ℝ)
    (halt : 0 < sat_alt) (hlon : sat_lon ∈ Set.Ioc (-π) π) (hlat : |sat_lat| < π / 2) :
    (∀ height : ℝ, -EARTH_RADIUS < height →
      forward_parallax sat_lon sat_lat sat_alt sat_lon sat_lat height = (sat_lon, sat_lat)) ∧
    (∀ (base : List (List (ℝ × ℝ))) (hts : List (List (Option ℝ))) (i j : Nat) (h0 : ℝ),
      -EARTH_RADIUS < h0 →
      get2? base i j = some (sat_lon, sat_lat) →
      get2? hts i j = some (some h0) →
      get2? (parallaxCorrectedArea sat_lon sat_lat sat_alt base hts) i j =
        some (sat_lon, sat_lat)) := by
  refine ⟨fun height hh => forward_parallax_at_ssp sat_lon sat_lat sat_alt height
    halt hh hlon hlat, fun base hts i j h0 hh hb hh2 => ?_⟩
  show get2? (List.zipWith (List.zipWith _) base hts) i j = _
  rw [get2?_zipWith, hb, hh2]
  simp only [Option.some_bind, Option.map_some']
  show some (forward_parallax sat_lon sat_lat sat_alt sat_lon sat_lat h0) = _
  rw [forward_parallax_at_ssp sat_lon sat_lat sat_alt h0 halt hh hlon hlat]

/-- Witness for claim C1 at longitude 1, latitude 1/2, altitude
30000000 m and cloud height 5000 m. -/
theorem claim_C1_witness :
    forward_parallax 1 (1 / 2) 30000000 1 (1 / 2) 5000 = (1, 1 / 2) :=
  (claim_C1 1 (1 / 2) 30000000 (by norm_num)
    ⟨by nlinarith [Real.pi_gt_three], by nlinarith [Real.pi_gt_three]⟩
    (by rw [abs_of_pos] <;> nlinarith [Real.pi_gt_three])).1 5000
    (by norm_num [EARTH_RADIUS])

end Parallax

namespace Parallax

theorem get2?_eq_some {α : Type} {g : List (List α)} {i j : Nat} {v : α} :
    get2? g i j = some v ↔ ∃ row, g[i]? = some row ∧ row[j]? = some v := by
  unfold ViirsEdr.get2?
  cases h : g[i]? <;> simp

theorem zipWith_none_id {α β : Type} (f : α → Option β → α) (hf : ∀ a, f a none = a) :
    ∀ (row : List α) (hr : List (Option β)), row.length = hr.length →
      (∀ x ∈ hr, x = none) → List.zipWith f row hr = row := by
  intro row
  induction row with
  | nil =>
    intro hr _ _
    simp
  | cons a as ih =>
    intro hr hlen hclear
    cases hr with
    | nil => simp at hlen
    | cons x xs =>
      have hx : x = none := hclear x (by simp)
      simp only [List.zipWith_cons_cons]
      rw [hx, hf a, ih xs (by simpa using hlen) (fun y hy => hclear y (by simp [hy]))]

theorem corrected_area_clear (slon slat salt : ℝ) :
    ∀ (base : List (List (ℝ × ℝ))) (hts : List (List (Option ℝ))),
      base.map List.length = hts.map List.length →
      (∀ row ∈ hts, ∀ hcell ∈ row, hcell = none) →
      parallaxCorrectedArea slon slat salt base hts = base := by
  intro base
  induction base with
  | nil =>
    intro hts _ _
    rfl
  | cons br brs ih =>
    intro hts hlen hclear
    cases hts with
    | nil => simp at hlen
    | cons hr hrs =>
      simp only [List.map_cons, List.cons.injEq] at hlen
      show List.zipWith _ (br :: brs) (hr :: hrs) = br :: brs
      simp only [List.zipWith_cons_cons, List.cons.injEq]
      exact ⟨zipWith_none_id _ (fun a => rfl) br hr hlen.1 (hclear hr (by simp)),
        ih hrs hlen.2 (fun row hrow => hclear row (by simp [hrow]))⟩

theorem fpGrid_shape (slon slat salt : ℝ) :
    ∀ (lons lats : List (List ℝ)) (hts : List (List (Option ℝ))),
      lons.map List.length = lats.map List.length →
      lons.map List.length = hts.map List.length →
      (forwardParallaxGrid slon slat salt lons lats hts).map List.length =
        lons.map List.length := by
  intro lons
  induction lons with
  | nil =>
    intro lats hts _ _
    rfl
  | cons lr lrs ih =>
    intro lats hts h1 h2
    cases lats with
    | nil => simp at h1
    | cons tr trs =>
      cases hts with
      | nil => simp at h2
      | cons hr hrs =>
        simp only [List.map_cons, List.cons.injEq] at h1 h2
        show (List.zipWith _ (List.zipWith List.zip (lr :: lrs) (tr :: trs))
          (hr :: hrs)).map List.length = _
        simp only [List.zipWith_cons_cons, List.map_cons, List.cons.injEq]
        constructor
        · rw [List.length_zipWith, List.length_zip, ← h1.1, ← h2.1]
          omega
        · exact ih trs hrs h1.2 h2.2

/-- Claim C3: the gridded forward parallax correction preserves the
shape of its inputs, yields NaN (None) coordinates exactly at the pixels
whose cloud-top height is NaN and defined coordinates at every pixel
with a finite height; and the parallax-corrected area of a fully
clear-sky scene keeps exactly the longitudes and latitudes of the
requested base area. -/
theorem claim_C3 (sat_lon sat_lat sat_alt : ℝ) (lons lats : List (List ℝ))
    (hts : List (List (Option ℝ))) :
    (lons.map List.length = lats.map List.length →
     lons.map List.length = hts.map List.length →
     (forwardParallaxGrid sat_lon sat_lat sat_alt lons lats hts).map List.length =
       lons.map List.length) ∧
    (∀ (i j : Nat) (lon lat : ℝ) (h? : Option ℝ),
      get2? lons i j = some lon → get2? lats i j = some lat →
      get2? hts i j = some h? →
      get2? (forwardParallaxGrid sat_lon sat_lat sat_alt lons lats hts) i j =
        some (h?.map (forward_parallax sat_lon sat_lat sat_alt lon lat))) ∧
    (∀ (base : List (List (ℝ × ℝ))),
      base.map List.length = hts.map List.length →
      (∀ row ∈ hts, ∀ hcell ∈ row, hcell = none) →
      parallaxCorrectedArea sat_lon sat_lat sat_alt base hts = base) := by
  refine ⟨fpGrid_shape sat_lon sat_lat sat_alt lons lats hts, ?_, ?_⟩
  · intro i j lon lat h? hlon hlat hh
    obtain ⟨lr, hlr, hlr2⟩ := get2?_eq_some.mp hlon
    obtain ⟨tr, htr, htr2⟩ := get2?_eq_some.mp hlat
    obtain ⟨hr, hhr, hhr2⟩ := get2?_eq_some.mp hh
    show get2? (List.zipWith _ (List.zipWith List.zip lons lats) hts) i j = _
    unfold ViirsEdr.get2?
    rw [List.getElem?_zipWith', List.getElem?_zipWith', hlr, htr, hhr]
    simp only [Option.map_some', Option.some_bind]
    rw [List.getElem?_zipWith']
    rw [show lr.zip tr = List.zipWith Prod.mk lr tr from rfl, List.getElem?_zipWith',
      hlr2, htr2, hhr2]
    simp
  · intro base hlen hclear
    exact corrected_area_clear sat_lon sat_lat sat_alt base hts hlen hclear

/-- Witness for claim C3 on a one-pixel grid: a NaN cloud-top height
yields a NaN corrected coordinate pair, and the clear-sky corrected area
keeps the base coordinates. -/
theorem claim_C3_witness :
    get2? (forwardParallaxGrid 0 0 35000000 [[0]] [[0]] [[none]]) 0 0 =
      some ((none : Option ℝ).map (forward_parallax 0 0 35000000 0 0)) ∧
    parallaxCorrectedArea 0 0 35000000 [[((1 : ℝ), (2 : ℝ))]] [[none]] = [[(1, 2)]] := by
  have h := claim_C3 0 0 35000000 [[0]] [[0]] [[none]]
  exact ⟨h.2.1 0 0 0 0 none rfl rfl rfl, h.2.2 [[(1, 2)]] rfl (by simp)⟩

end Parallax

namespace Parallax

open Real

theorem abs_arcsin (x : ℝ) : |Real.arcsin x| = Real.arcsin |x| := by
  rcases le_or_lt 0 x with hx | hx
  · rw [abs_of_nonneg hx, abs_of_nonneg (Real.arcsin_nonneg.mpr hx)]
  · have hneg : Real.arcsin x < 0 := by
      rw [← not_le, Real.arcsin_nonneg]
      exact not_le.mpr hx
    rw [abs_of_neg hx, abs_of_neg hneg, ← Real.arcsin_neg]

theorem parallaxT_xaxis (r d x y z : ℝ) :
    parallaxT (d, 0, 0) (x, y, z) r =
      qroot (x ^ 2 + y ^ 2 + z ^ 2 - 2 * d * x + d ^ 2) (2 * (d * x - d ^ 2))
        (d ^ 2 - r ^ 2) := by
  unfold parallaxT
  exact qroot_congr (by unfold dot3 sub3; ring) (by unfold dot3 sub3; ring)
    (by unfold dot3; ring)

theorem parallaxT_xaxis_facts (R r d x y z : ℝ) (hR : 0 < R) (hRr : R < r) (hrd : r < d)
    (hX : x ^ 2 + y ^ 2 + z ^ 2 = R ^ 2) :
    (0 < parallaxT (d, 0, 0) (x, y, z) r ∧ parallaxT (d, 0, 0) (x, y, z) r < 1) ∧
    (d + parallaxT (d, 0, 0) (x, y, z) r * (x - d)) ^ 2 +
      (parallaxT (d, 0, 0) (x, y, z) r * y) ^ 2 +
      (parallaxT (d, 0, 0) (x, y, z) r * z) ^ 2 = r ^ 2 := by
  have hxR : x ≤ R := by nlinarith [sq_nonneg y, sq_nonneg z, sq_nonneg (x - R)]
  have hq := qroot_spec (x ^ 2 + y ^ 2 + z ^ 2 - 2 * d * x + d ^ 2)
    (2 * (d * x - d ^ 2)) (d ^ 2 - r ^ 2)
    (by nlinarith [sq_nonneg (d - R)]) (by nlinarith) (by nlinarith)
  rw [parallaxT_xaxis]
  exact ⟨⟨hq.2.2.1, hq.2.2.2⟩, by linear_combination hq.2.1⟩

theorem xyz2lon_eq_arcsin (p : V3) (hp : 0 ≤ p.1) :
    xyz2lon p = Real.arcsin (p.2.1 / Real.sqrt (p.1 ^ 2 + p.2.1 ^ 2)) := by
  unfold xyz2lon
  rw [Complex.arg_of_re_nonneg (by simpa using hp), Complex.abs_add_mul_I]
  congr 1
  simp

set_option maxHeartbeats 1000000 in
theorem forward_parallax_pixel (sat_alt h lon lat : ℝ)
    (hh : 0 < h) (hha : h < sat_alt) (hlon : |lon| < π / 2) (hlat : |lat| < π / 2) :
    (|(forward_parallax 0 0 sat_alt lon lat h).1| ≤ |lon| ∧
     |(forward_parallax 0 0 sat_alt lon lat h).2| ≤ |lat|) ∧
    ((lon ≠ 0 → |(forward_parallax 0 0 sat_alt lon lat h).1| < |lon|) ∧
     (lat ≠ 0 → |(forward_parallax 0 0 sat_alt lon lat h).2| < |lat|)) := by
  have hR : (0 : ℝ) < EARTH_RADIUS := by norm_num [EARTH_RADIUS]
  set d : ℝ := EARTH_RADIUS + sat_alt with hd_def
  set r : ℝ := EARTH_RADIUS + h with hr_def
  have hr0 : 0 < r := by simp only [hr_def]; linarith
  have hRr : EARTH_RADIUS < r := by simp only [hr_def]; linarith
  have hrd : r < d := by simp only [hr_def, hd_def]; linarith
  have hd0 : 0 < d := by linarith
  have hco : 0 < Real.cos lon :=
    Real.cos_pos_of_mem_Ioo ⟨by linarith [(abs_lt.mp hlon).1], (abs_lt.mp hlon).2⟩
  have hcl : 0 < Real.cos lat :=
    Real.cos_pos_of_mem_Ioo ⟨by linarith [(abs_lt.mp hlat).1], (abs_lt.mp hlat).2⟩
  set x : ℝ := EARTH_RADIUS * (Real.cos lat * Real.cos lon) with hx_def
  set y : ℝ := EARTH_RADIUS * (Real.cos lat * Real.sin lon) with hy_def
  set z : ℝ := EARTH_RADIUS * Real.sin lat with hz_def
  have hx0 : 0 < x := by
    simp only [hx_def]
    positivity
  have hX : x ^ 2 + y ^ 2 + z ^ 2 = EARTH_RADIUS ^ 2 := by
    simp only [hx_def, hy_def, hz_def]
    linear_combination (EARTH_RADIUS * Real.cos lat) ^ 2 * Real.sin_sq_add_cos_sq lon +
      EARTH_RADIUS ^ 2 * Real.sin_sq_add_cos_sq lat
  obtain ⟨⟨hT0, hT1⟩, hnorm⟩ :=
    parallaxT_xaxis_facts EARTH_RADIUS r d x y z hR hRr hrd hX
  set T : ℝ := parallaxT (d, 0, 0) (x, y, z) r with hT_def
  set Px : ℝ := d + T * (x - d) with hPx_def
  clear_value T
  have hPx0 : 0 < Px := by
    simp only [hPx_def]
    nlinarith
  have hfp : forward_parallax 0 0 sat_alt lon lat h =
      (xyz2lon (Px, T * y, T * z), xyz2lat (Px, T * y, T * z)) := by
    simp only [forward_parallax]
    rw [show smul3 (EARTH_RADIUS + sat_alt) (lonlat2xyz 0 0) = ((d : ℝ), (0 : ℝ), (0 : ℝ))
        from by simp [lonlat2xyz, smul3, hd_def]]
    rw [show smul3 EARTH_RADIUS (lonlat2xyz lon lat) = ((x : ℝ), (y : ℝ), (z : ℝ)) from rfl]
    rw [← hr_def]
    rw [show add3 ((d : ℝ), (0 : ℝ), (0 : ℝ))
        (smul3 (parallaxT ((d : ℝ), (0 : ℝ), (0 : ℝ)) ((x : ℝ), (y : ℝ), (z : ℝ)) r)
          (sub3 ((x : ℝ), (y : ℝ), (z : ℝ)) ((d : ℝ), (0 : ℝ), (0 : ℝ)))) =
        ((Px : ℝ), T * y, T * z) from by
      simp only [add3, smul3, sub3, hPx_def, hT_def, Prod.mk.injEq]
      refine ⟨by ring, by ring, by ring⟩]
  have hdot : dot3 (Px, T * y, T * z) (Px, T * y, T * z) = r ^ 2 := by
    unfold dot3
    linear_combination hnorm
  have hcorrlat : (forward_parallax 0 0 sat_alt lon lat h).2 =
      Real.arcsin (T * z / r) := by
    rw [hfp]
    show xyz2lat (Px, T * y, T * z) = _
    unfold xyz2lat
    rw [hdot, Real.sqrt_sq hr0.le]
  have hcorrlon : (forward_parallax 0 0 sat_alt lon lat h).1 =
      Real.arcsin (T * y / Real.sqrt (Px ^ 2 + (T * y) ^ 2)) := by
    rw [hfp]
    exact xyz2lon_eq_arcsin (Px, T * y, T * z) hPx0.le
  -- the original longitude and latitude as arcsines
  have hxy : x ^ 2 + y ^ 2 = (EARTH_RADIUS * Real.cos lat) ^ 2 := by
    simp only [hx_def, hy_def]
    linear_combination (EARTH_RADIUS * Real.cos lat) ^ 2 * Real.sin_sq_add_cos_sq lon
  have hlon_val : lon = Real.arcsin (y / Real.sqrt (x ^ 2 + y ^ 2)) := by
    rw [hxy, Real.sqrt_sq (by positivity)]
    rw [show y / (EARTH_RADIUS * Real.cos lat) = Real.sin lon from by
      simp only [hy_def]
      field_simp
      ring]
    exact (Real.arcsin_sin (by linarith [(abs_lt.mp hlon).1]) (abs_lt.mp hlon).2.le).symm
  have hlat_val : lat = Real.arcsin (z / EARTH_RADIUS) := by
    rw [show z / EARTH_RADIUS = Real.sin lat from by
      simp only [hz_def]
      field_simp]
    exact (Real.arcsin_sin (by linarith [(abs_lt.mp hlat).1]) (abs_lt.mp hlat).2.le).symm
  clear_value Px
  clear_value d r x y z
  -- latitude comparison
  have hTRr : T * EARTH_RADIUS < r := by nlinarith
  have hlat_le : |T * z / r| ≤ |z / EARTH_RADIUS| := by
    rw [abs_div, abs_div, abs_of_pos hr0, abs_of_pos hR, abs_mul, abs_of_pos hT0,
      div_le_div_iff hr0 hR]
    nlinarith [abs_nonneg z]
  have hlat_weak : |(forward_parallax 0 0 sat_alt lon lat h).2| ≤ |lat| := by
    rw [hcorrlat, hlat_val, abs_arcsin, abs_arcsin]
    exact Real.monotone_arcsin hlat_le
  -- longitude comparison
  have hPxTy : 0 < Px ^ 2 + (T * y) ^ 2 := by positivity
  have hxy0 : 0 < x ^ 2 + y ^ 2 := by nlinarith [sq_nonneg y]
  have hu2 : (T * y / Real.sqrt (Px ^ 2 + (T * y) ^ 2)) ^ 2 =
      (T * y) ^ 2 / (Px ^ 2 + (T * y) ^ 2) := by
    rw [div_pow, Real.sq_sqrt hPxTy.le]
  have hv2 : (y / Real.sqrt (x ^ 2 + y ^ 2)) ^ 2 = y ^ 2 / (x ^ 2 + y ^ 2) := by
    rw [div_pow, Real.sq_sqrt hxy0.le]
  have hTx : T * x ≤ Px := by
    simp only [hPx_def]
    nlinarith
  have hulev : (T * y / Real.sqrt (Px ^ 2 + (T * y) ^ 2)) ^ 2 ≤
      (y / Real.sqrt (x ^ 2 + y ^ 2)) ^ 2 := by
    rw [hu2, hv2, div_le_div_iff hPxTy hxy0]
    have hkey : (T * x) ^ 2 ≤ Px ^ 2 := pow_le_pow_left (mul_pos hT0 hx0).le hTx 2
    have hprod : y ^ 2 * (T * x) ^ 2 ≤ y ^ 2 * Px ^ 2 :=
      mul_le_mul_of_nonneg_left hkey (sq_nonneg y)
    have he1 : (T * y) ^ 2 * (x ^ 2 + y ^ 2) =
        y ^ 2 * (T * x) ^ 2 + (T * y) ^ 2 * y ^ 2 := by ring
    have he2 : y ^ 2 * (Px ^ 2 + (T * y) ^ 2) =
        y ^ 2 * Px ^ 2 + (T * y) ^ 2 * y ^ 2 := by ring
    linarith only [hprod, he1, he2]
  have hlon_le : |T * y / Real.sqrt (Px ^ 2 + (T * y) ^ 2)| ≤
      |y / Real.sqrt (x ^ 2 + y ^ 2)| := by
    rw [← Real.sqrt_sq_eq_abs, ← Real.sqrt_sq_eq_abs]
    exact Real.sqrt_le_sqrt hulev
  have hlon_weak : |(forward_parallax 0 0 sat_alt lon lat h).1| ≤ |lon| := by
    rw [hcorrlon, hlon_val, abs_arcsin, abs_arcsin]
    exact Real.monotone_arcsin hlon_le
  refine ⟨⟨hlon_weak, hlat_weak⟩, fun hlonne => ?_, fun hlatne => ?_⟩
  · -- strict longitude
    have hmpi : -π < lon := by
      have h1 := (abs_lt.mp hlon).1
      linarith only [h1, Real.pi_gt_three]
    have hppi : lon < π := by
      have h1 := (abs_lt.mp hlon).2
      linarith only [h1, Real.pi_gt_three]
    have hsin : Real.sin lon ≠ 0 := fun h0 =>
      hlonne ((Real.sin_eq_zero_iff_of_lt_of_lt hmpi hppi).mp h0)
    have hy0 : y ≠ 0 := by
      simp only [hy_def]
      exact mul_ne_zero hR.ne' (mul_ne_zero hcl.ne' hsin)
    have hdT : 0 < d * (1 - T) := mul_pos hd0 (by linarith only [hT1])
    have hustrict : (T * y / Real.sqrt (Px ^ 2 + (T * y) ^ 2)) ^ 2 <
        (y / Real.sqrt (x ^ 2 + y ^ 2)) ^ 2 := by
      rw [hu2, hv2, div_lt_div_iff hPxTy hxy0]
      have hy2 : 0 < y ^ 2 := by positivity
      have hTxs : T * x < Px := by
        simp only [hPx_def]
        linarith only [hdT]
      have hkey : (T * x) ^ 2 < Px ^ 2 := by
        apply pow_lt_pow_left hTxs (mul_pos hT0 hx0).le
        norm_num
      have hprod : y ^ 2 * (T * x) ^ 2 < y ^ 2 * Px ^ 2 :=
        mul_lt_mul_of_pos_left hkey hy2
      have he1 : (T * y) ^ 2 * (x ^ 2 + y ^ 2) =
          y ^ 2 * (T * x) ^ 2 + (T * y) ^ 2 * y ^ 2 := by ring
      have he2 : y ^ 2 * (Px ^ 2 + (T * y) ^ 2) =
          y ^ 2 * Px ^ 2 + (T * y) ^ 2 * y ^ 2 := by ring
      linarith only [hprod, he1, he2]
    have habs : |T * y / Real.sqrt (Px ^ 2 + (T * y) ^ 2)| <
        |y / Real.sqrt (x ^ 2 + y ^ 2)| := by
      rw [← Real.sqrt_sq_eq_abs, ← Real.sqrt_sq_eq_abs]
      exact Real.sqrt_lt_sqrt (sq_nonneg _) hustrict
    have hvle : |y / Real.sqrt (x ^ 2 + y ^ 2)| ≤ 1 := by
      rw [← Real.sqrt_sq_eq_abs, show (1 : ℝ) = Real.sqrt 1 from (Real.sqrt_one).symm]
      apply Real.sqrt_le_sqrt
      rw [hv2, div_le_one hxy0]
      linarith only [sq_nonneg x]
    rw [hcorrlon, hlon_val, abs_arcsin, abs_arcsin]
    exact Real.strictMonoOn_arcsin
      ⟨by linarith only [abs_nonneg (T * y / Real.sqrt (Px ^ 2 + (T * y) ^ 2))],
        by linarith only [habs, hvle]⟩
      ⟨by linarith only [abs_nonneg (y / Real.sqrt (x ^ 2 + y ^ 2))], hvle⟩ habs
  · -- strict latitude
    have hmpi : -π < lat := by
      have h1 := (abs_lt.mp hlat).1
      linarith only [h1, Real.pi_gt_three]
    have hppi : lat < π := by
      have h1 := (abs_lt.mp hlat).2
      linarith only [h1, Real.pi_gt_three]
    have hsin : Real.sin lat ≠ 0 := fun h0 =>
      hlatne ((Real.sin_eq_zero_iff_of_lt_of_lt hmpi hppi).mp h0)
    have hz0 : z ≠ 0 := by
      simp only [hz_def]
      exact mul_ne_zero hR.ne' hsin
    have habsz : 0 < |z| := abs_pos.mpr hz0
    have hstrict : |T * z / r| < |z / EARTH_RADIUS| := by
      rw [abs_div, abs_div, abs_of_pos hr0, abs_of_pos hR, abs_mul, abs_of_pos hT0,
        div_lt_div_iff hr0 hR]
      have h1 : |z| * (T * EARTH_RADIUS) < |z| * r := mul_lt_mul_of_pos_left hTRr habsz
      linarith only [h1]
    have hvle : |z / EARTH_RADIUS| ≤ 1 := by
      rw [abs_div, abs_of_pos hR, div_le_one hR]
      have h2 : z ^ 2 ≤ EARTH_RADIUS ^ 2 := by
        linarith only [hX, sq_nonneg x, sq_nonneg y]
      have habs2 : |z| ^ 2 ≤ EARTH_RADIUS ^ 2 := by rwa [sq_abs]
      exact le_of_pow_le_pow_left (by norm_num) hR.le habs2
    rw [hcorrlat, hlat_val, abs_arcsin, abs_arcsin]
    exact Real.strictMonoOn_arcsin
      ⟨by linarith only [abs_nonneg (T * z / r)], by linarith only [hstrict, hvle]⟩
      ⟨by linarith only [abs_nonneg (z / EARTH_RADIUS)], hvle⟩ hstrict

end Parallax

namespace Parallax

open Real

theorem arcsin_le_jordan (v : ℝ) (h0 : 0 ≤ v) (h1 : v ≤ 1) :
    Real.arcsin v ≤ π / 2 * v := by
  have h2 := Real.mul_le_sin (Real.arcsin_nonneg.mpr h0) (Real.arcsin_le_pi_div_two v)
  rw [Real.sin_arcsin (by linarith) h1] at h2
  have hpi : (0 : ℝ) < π := Real.pi_pos
  have h3 : Real.arcsin v = π / 2 * (2 / π * Real.arcsin v) := by
    field_simp
    ring
  rw [h3]
  exact mul_le_mul_of_nonneg_left h2 (by positivity)

theorem groundAngle_zero (kk : ℝ) : groundAngle kk 0 = 0 := by
  simp [groundAngle]

theorem groundAngle_continuous (kk : ℝ) : Continuous (groundAngle kk) := by
  unfold groundAngle
  exact (Real.continuous_arcsin.comp (continuous_const.mul Real.continuous_sin)).sub
    continuous_id

theorem groundAngle_hasDerivAt (kk al : ℝ) (h1 : kk * Real.sin al ≠ -1)
    (h2 : kk * Real.sin al ≠ 1) :
    HasDerivAt (groundAngle kk)
      (1 / Real.sqrt (1 - (kk * Real.sin al) ^ 2) * (kk * Real.cos al) - 1) al := by
  have hs : HasDerivAt (fun a : ℝ => kk * Real.sin a) (kk * Real.cos al) al :=
    (Real.hasDerivAt_sin al).const_mul kk
  have ha : HasDerivAt Real.arcsin
      (1 / Real.sqrt (1 - (kk * Real.sin al) ^ 2)) (kk * Real.sin al) :=
    Real.hasDerivAt_arcsin h1 h2
  have hc := ha.comp al hs
  have hid : HasDerivAt (fun a : ℝ => a) 1 al := hasDerivAt_id al
  have hsub := hc.sub hid
  simpa [groundAngle, Function.comp] using hsub

theorem groundAngle_strictMonoOn (kk amax : ℝ) (hk : 1 < kk) (h0 : 0 ≤ amax)
    (hmax : amax ≤ π / 2) (hb : kk * Real.sin amax < 1) :
    StrictMonoOn (groundAngle kk) (Set.Icc 0 amax) := by
  apply strictMonoOn_of_deriv_pos (convex_Icc 0 amax)
    (groundAngle_continuous kk).continuousOn
  intro al hal
  rw [interior_Icc] at hal
  obtain ⟨hal0, hal1⟩ := hal
  have hpi3 := Real.pi_gt_three
  have hsal0 : 0 < Real.sin al :=
    Real.sin_pos_of_pos_of_lt_pi hal0 (by linarith)
  have hsalm : Real.sin al < Real.sin amax :=
    Real.strictMonoOn_sin ⟨by linarith, by linarith⟩ ⟨by linarith, hmax⟩ hal1
  have hu0 : 0 < kk * Real.sin al := mul_pos (by linarith) hsal0
  have hu1 : kk * Real.sin al < 1 := by
    have := mul_lt_mul_of_pos_left hsalm (show (0 : ℝ) < kk by linarith)
    linarith
  have hd := groundAngle_hasDerivAt kk al (by linarith) (ne_of_lt hu1)
  rw [hd.deriv]
  have hcal : 0 < Real.cos al :=
    Real.cos_pos_of_mem_Ioo ⟨by linarith, by linarith⟩
  have hu2 : (kk * Real.sin al) ^ 2 < 1 := by nlinarith
  have hs0 : 0 < Real.sqrt (1 - (kk * Real.sin al) ^ 2) :=
    Real.sqrt_pos.mpr (by linarith)
  have hkc : 0 < kk * Real.cos al := mul_pos (by linarith) hcal
  have hlt : Real.sqrt (1 - (kk * Real.sin al) ^ 2) < kk * Real.cos al := by
    rw [Real.sqrt_lt' hkc]
    nlinarith [Real.sin_sq_add_cos_sq al,
      mul_pos (sub_pos.mpr hk) (show (0 : ℝ) < kk + 1 by linarith)]
  have h5 : 1 < kk * Real.cos al / Real.sqrt (1 - (kk * Real.sin al) ^ 2) :=
    (one_lt_div hs0).mpr hlt
  have h6 : 1 / Real.sqrt (1 - (kk * Real.sin al) ^ 2) * (kk * Real.cos al) =
      kk * Real.cos al / Real.sqrt (1 - (kk * Real.sin al) ^ 2) := by
    rw [div_mul_eq_mul_div, one_mul]
  rw [h6]
  linarith

theorem groundAngle_diff_strictMonoOn (k1 k2 amax : ℝ) (hk2 : 0 < k2) (hk12 : k2 < k1)
    (h0 : 0 ≤ amax) (hmax : amax ≤ π / 2) (hb : k1 * Real.sin amax < 1) :
    StrictMonoOn (fun al => groundAngle k1 al - groundAngle k2 al) (Set.Icc 0 amax) := by
  apply strictMonoOn_of_deriv_pos (convex_Icc 0 amax)
    ((groundAngle_continuous k1).sub (groundAngle_continuous k2)).continuousOn
  intro al hal
  rw [interior_Icc] at hal
  obtain ⟨hal0, hal1⟩ := hal
  have hpi3 := Real.pi_gt_three
  have hsal0 : 0 < Real.sin al :=
    Real.sin_pos_of_pos_of_lt_pi hal0 (by linarith)
  have hsalm : Real.sin al < Real.sin amax :=
    Real.strictMonoOn_sin ⟨by linarith, by linarith⟩ ⟨by linarith, hmax⟩ hal1
  have hu10 : 0 < k1 * Real.sin al := mul_pos (by linarith) hsal0
  have hu11 : k1 * Real.sin al < 1 := by
    have := mul_lt_mul_of_pos_left hsalm (show (0 : ℝ) < k1 by linarith)
    linarith
  have hu20 : 0 < k2 * Real.sin al := mul_pos hk2 hsal0
  have hu21 : k2 * Real.sin al < k1 * Real.sin al :=
    mul_lt_mul_of_pos_right hk12 hsal0
  have hd1 := groundAngle_hasDerivAt k1 al (by linarith) (ne_of_lt hu11)
  have hd2 := groundAngle_hasDerivAt k2 al (by linarith) (by linarith)
  have hd := hd1.sub hd2
  rw [hd.deriv]
  have hcal : 0 < Real.cos al :=
    Real.cos_pos_of_mem_Ioo ⟨by linarith, by linarith⟩
  have hu12 : (k1 * Real.sin al) ^ 2 < 1 := by nlinarith
  have hu22 : (k2 * Real.sin al) ^ 2 < (k1 * Real.sin al) ^ 2 := by nlinarith
  have hs10 : 0 < Real.sqrt (1 - (k1 * Real.sin al) ^ 2) :=
    Real.sqrt_pos.mpr (by linarith)
  have hs20 : 0 < Real.sqrt (1 - (k2 * Real.sin al) ^ 2) :=
    Real.sqrt_pos.mpr (by nlinarith)
  have hs12 : Real.sqrt (1 - (k1 * Real.sin al) ^ 2) <
      Real.sqrt (1 - (k2 * Real.sin al) ^ 2) :=
    Real.sqrt_lt_sqrt (by linarith) (by linarith)
  have hA12 : k2 * Real.cos al < k1 * Real.cos al :=
    mul_lt_mul_of_pos_right hk12 hcal
  have hA20 : 0 < k2 * Real.cos al := mul_pos hk2 hcal
  have hkey : k2 * Real.cos al / Real.sqrt (1 - (k2 * Real.sin al) ^ 2) <
      k1 * Real.cos al / Real.sqrt (1 - (k1 * Real.sin al) ^ 2) := by
    rw [div_lt_div_iff hs20 hs10]
    exact mul_lt_mul'' hA12 hs12 hA20.le hs10.le
  have h61 : 1 / Real.sqrt (1 - (k1 * Real.sin al) ^ 2) * (k1 * Real.cos al) =
      k1 * Real.cos al / Real.sqrt (1 - (k1 * Real.sin al) ^ 2) := by
    rw [div_mul_eq_mul_div, one_mul]
  have h62 : 1 / Real.sqrt (1 - (k2 * Real.sin al) ^ 2) * (k2 * Real.cos al) =
      k2 * Real.cos al / Real.sqrt (1 - (k2 * Real.sin al) ^ 2) := by
    rw [div_mul_eq_mul_div, one_mul]
  rw [h61, h62]
  linarith

theorem groundAngle_exists (kk amax t : ℝ) (h0 : 0 ≤ amax)
    (ht : t ∈ Set.Icc 0 (groundAngle kk amax)) :
    ∃ al ∈ Set.Icc 0 amax, groundAngle kk al = t := by
  have hsub := intermediate_value_Icc h0 (groundAngle_continuous kk).continuousOn
  rw [groundAngle_zero] at hsub
  obtain ⟨al, hal, hval⟩ := hsub ht
  exact ⟨al, hal, hval⟩

theorem amax_facts (sat_alt : ℝ) (halt : 5 * EARTH_RADIUS ≤ sat_alt) :
    0 < Real.arcsin (EARTH_RADIUS / ((EARTH_RADIUS + sat_alt) * Real.sqrt 2)) ∧
    Real.arcsin (EARTH_RADIUS / ((EARTH_RADIUS + sat_alt) * Real.sqrt 2)) ≤ 1 / 4 ∧
    Real.sin (Real.arcsin (EARTH_RADIUS / ((EARTH_RADIUS + sat_alt) * Real.sqrt 2))) *
      ((EARTH_RADIUS + sat_alt) * Real.sqrt 2) = EARTH_RADIUS ∧
    ((EARTH_RADIUS + sat_alt) / EARTH_RADIUS) *
      Real.sin (Real.arcsin (EARTH_RADIUS / ((EARTH_RADIUS + sat_alt) * Real.sqrt 2))) < 1 ∧
    1 / 2 ≤ groundAngle ((EARTH_RADIUS + sat_alt) / EARTH_RADIUS)
      (Real.arcsin (EARTH_RADIUS / ((EARTH_RADIUS + sat_alt) * Real.sqrt 2))) := by
  have hR : (0 : ℝ) < EARTH_RADIUS := by norm_num [EARTH_RADIUS]
  set d : ℝ := EARTH_RADIUS + sat_alt with hd_def
  have hd6 : 6 * EARTH_RADIUS ≤ d := by
    simp only [hd_def]
    linarith
  have hd0 : 0 < d := by linarith
  have hs2 : (0 : ℝ) < Real.sqrt 2 := Real.sqrt_pos.mpr (by norm_num)
  have h1414 : (1.414 : ℝ) < Real.sqrt 2 := by
    nlinarith [Real.sq_sqrt (show (0 : ℝ) ≤ 2 by norm_num), Real.sqrt_nonneg 2]
  have hds2 : 0 < d * Real.sqrt 2 := mul_pos hd0 hs2
  have hu0 : 0 < EARTH_RADIUS / (d * Real.sqrt 2) := div_pos hR hds2
  have hu1 : EARTH_RADIUS / (d * Real.sqrt 2) < 1 := by
    rw [div_lt_one hds2]
    nlinarith [mul_lt_mul_of_pos_left h1414 hd0]
  have hsin : Real.sin (Real.arcsin (EARTH_RADIUS / (d * Real.sqrt 2))) =
      EARTH_RADIUS / (d * Real.sqrt 2) := Real.sin_arcsin (by linarith) hu1.le
  have hjor := arcsin_le_jordan (EARTH_RADIUS / (d * Real.sqrt 2)) hu0.le hu1.le
  have hle : EARTH_RADIUS / (d * Real.sqrt 2) ≤ 1 / (6 * 1.414) := by
    rw [div_le_div_iff hds2 (by norm_num)]
    nlinarith [mul_le_mul hd6 h1414.le (by norm_num : (0 : ℝ) ≤ 1.414) hd0.le]
  have hpi315 : π < 3.15 := Real.pi_lt_315
  have hpi0 : (0 : ℝ) < π := Real.pi_pos
  have hamax_le : Real.arcsin (EARTH_RADIUS / (d * Real.sqrt 2)) ≤ 1 / 4 := by
    have h7 : π / 2 * (EARTH_RADIUS / (d * Real.sqrt 2)) ≤ π / 2 * (1 / (6 * 1.414)) :=
      mul_le_mul_of_nonneg_left hle (by positivity)
    have h8 : π / 2 * (1 / (6 * 1.414)) ≤ 3.15 / 2 * (1 / (6 * 1.414)) := by nlinarith
    have h9 : (3.15 : ℝ) / 2 * (1 / (6 * 1.414)) ≤ 1 / 4 := by norm_num
    linarith
  have h10 : d / EARTH_RADIUS * (EARTH_RADIUS / (d * Real.sqrt 2)) = 1 / Real.sqrt 2 := by
    field_simp
  refine ⟨Real.arcsin_pos.mpr hu0, hamax_le, ?_, ?_, ?_⟩
  · rw [hsin]
    exact div_mul_cancel₀ EARTH_RADIUS hds2.ne'
  · rw [hsin, h10, div_lt_one hs2]
    linarith
  · unfold groundAngle
    rw [hsin, h10]
    have h11 : (1 : ℝ) / Real.sqrt 2 = Real.sqrt 2 / 2 := by
      rw [div_eq_div_iff hs2.ne' (by norm_num : (2 : ℝ) ≠ 0), one_mul]
      exact (Real.mul_self_sqrt (by norm_num)).symm
    have h12 : Real.arcsin (1 / Real.sqrt 2) = π / 4 := by
      rw [h11, ← Real.sin_pi_div_four]
      exact Real.arcsin_sin (by linarith) (by linarith)
    rw [h12]
    linarith [Real.pi_gt_three]

set_option maxHeartbeats 1000000 in
theorem fp_axes (sat_alt h al σ : ℝ) (hh : 0 < h) (hha : h < sat_alt)
    (hal0 : 0 < al) (hal2 : al < π / 2)
    (hbound : 2 * ((EARTH_RADIUS + sat_alt) * Real.sin al) ^ 2 ≤ EARTH_RADIUS ^ 2)
    (hσ : σ = 1 ∨ σ = -1) :
    forward_parallax 0 0 sat_alt
        (σ * groundAngle ((EARTH_RADIUS + sat_alt) / EARTH_RADIUS) al) 0 h =
      (σ * groundAngle ((EARTH_RADIUS + sat_alt) / (EARTH_RADIUS + h)) al, 0) ∧
    forward_parallax 0 0 sat_alt 0
        (σ * groundAngle ((EARTH_RADIUS + sat_alt) / EARTH_RADIUS) al) h =
      (0, σ * groundAngle ((EARTH_RADIUS + sat_alt) / (EARTH_RADIUS + h)) al) := by
  have hR : (0 : ℝ) < EARTH_RADIUS := by norm_num [EARTH_RADIUS]
  have hpi3 := Real.pi_gt_three
  set d : ℝ := EARTH_RADIUS + sat_alt with hd_def
  set r : ℝ := EARTH_RADIUS + h with hr_def
  have hr0 : 0 < r := by simp only [hr_def]; linarith
  have hRr : EARTH_RADIUS < r := by simp only [hr_def]; linarith
  have hrd : r < d := by simp only [hr_def, hd_def]; linarith
  have hd0 : 0 < d := by linarith
  have hR2r2 : EARTH_RADIUS ^ 2 < r ^ 2 := by
    have h1 := mul_lt_mul'' hRr hRr hR.le hR.le
    linarith only [h1]
  have hr2d2 : r ^ 2 < d ^ 2 := by
    have h1 := mul_lt_mul'' hrd hrd hr0.le hr0.le
    linarith only [h1]
  set s : ℝ := Real.sin al with hs_def
  set ca : ℝ := Real.cos al with hca_def
  have hs0 : 0 < s := by
    simp only [hs_def]
    exact Real.sin_pos_of_pos_of_lt_pi hal0 (by linarith)
  have hca0 : 0 < ca := by
    simp only [hca_def]
    exact Real.cos_pos_of_mem_Ioo ⟨by linarith, hal2⟩
  have hsc : s ^ 2 + ca ^ 2 = 1 := by
    simp only [hs_def, hca_def]
    exact Real.sin_sq_add_cos_sq al
  have hds0 : 0 < d * s := mul_pos hd0 hs0
  have hdsR : d * s < EARTH_RADIUS := by
    by_contra hcon
    push_neg at hcon
    have h1 : EARTH_RADIUS * EARTH_RADIUS ≤ d * s * (d * s) :=
      mul_le_mul hcon hcon hR.le hds0.le
    have h2 := mul_pos hds0 hds0
    linarith only [hbound, h1, h2]
  have hdsr : d * s < r := by linarith
  have huA1 : d * s / EARTH_RADIUS < 1 := (div_lt_one hR).mpr hdsR
  have huA0 : 0 < d * s / EARTH_RADIUS := div_pos hds0 hR
  have huB1 : d * s / r < 1 := (div_lt_one hr0).mpr hdsr
  have huB0 : 0 < d * s / r := div_pos hds0 hr0
  set A_ : ℝ := Real.arcsin (d * s / EARTH_RADIUS) with hA_def
  set B_ : ℝ := Real.arcsin (d * s / r) with hB_def
  have hsinA : Real.sin A_ = d * s / EARTH_RADIUS := by
    simp only [hA_def]
    exact Real.sin_arcsin (by linarith) huA1.le
  have hRsinA : EARTH_RADIUS * Real.sin A_ = d * s := by
    rw [hsinA]
    field_simp
  have hA0 : 0 < A_ := by
    simp only [hA_def]
    exact Real.arcsin_pos.mpr huA0
  have hA2 : A_ < π / 2 := by
    simp only [hA_def]
    exact Real.arcsin_lt_pi_div_two.mpr huA1
  have hcosA : 0 < Real.cos A_ := Real.cos_pos_of_mem_Ioo ⟨by linarith, hA2⟩
  have hsinB : Real.sin B_ = d * s / r := by
    simp only [hB_def]
    exact Real.sin_arcsin (by linarith) huB1.le
  have hrsinB : r * Real.sin B_ = d * s := by
    rw [hsinB]
    field_simp
  have hB0 : 0 < B_ := by
    simp only [hB_def]
    exact Real.arcsin_pos.mpr huB0
  have hB2 : B_ < π / 2 := by
    simp only [hB_def]
    exact Real.arcsin_lt_pi_div_two.mpr huB1
  have hcosB : 0 < Real.cos B_ := Real.cos_pos_of_mem_Ioo ⟨by linarith, hB2⟩
  set qa : ℝ := EARTH_RADIUS * Real.cos A_ with hqa_def
  set qb : ℝ := r * Real.cos B_ with hqb_def
  have hqa0 : 0 < qa := mul_pos hR hcosA
  have hqb0 : 0 < qb := mul_pos hr0 hcosB
  have hqa2 : qa ^ 2 = EARTH_RADIUS ^ 2 - (d * s) ^ 2 := by
    simp only [hqa_def]
    linear_combination EARTH_RADIUS ^ 2 * Real.sin_sq_add_cos_sq A_ -
      (d * s + EARTH_RADIUS * Real.sin A_) * hRsinA
  have hqb2 : qb ^ 2 = r ^ 2 - (d * s) ^ 2 := by
    simp only [hqb_def]
    linear_combination r ^ 2 * Real.sin_sq_add_cos_sq B_ -
      (d * s + r * Real.sin B_) * hrsinB
  have hqaqb : qa < qb := by
    have h1 : qa ^ 2 < qb ^ 2 := by linarith only [hqa2, hqb2, hR2r2]
    exact lt_of_pow_lt_pow_left 2 hqb0.le h1
  have hdca0 : 0 < d * ca := mul_pos hd0 hca0
  have hqbdca : qb < d * ca := by
    have key : (d * ca) ^ 2 - qb ^ 2 = d ^ 2 - r ^ 2 := by
      linear_combination d ^ 2 * hsc - hqb2
    have h1 : qb ^ 2 < (d * ca) ^ 2 := by linarith only [key, hr2d2]
    exact lt_of_pow_lt_pow_left 2 hdca0.le h1
  have hu0 : 0 < d * ca - qa := by linarith
  set T0 : ℝ := (d * ca - qb) / (d * ca - qa) with hT0_def
  have hT00 : 0 < T0 := div_pos (by linarith) hu0
  have hT01 : T0 < 1 := by
    rw [hT0_def, div_lt_one hu0]
    linarith
  have hT0u : T0 * (d * ca - qa) = d * ca - qb := by
    rw [hT0_def]
    exact div_mul_cancel₀ _ hu0.ne'
  have hRcos : EARTH_RADIUS * Real.cos (A_ - al) = qa * ca + d * s * s := by
    rw [Real.cos_sub, ← hs_def, ← hca_def]
    linear_combination (-ca) * hqa_def + s * hRsinA
  have hRsin : EARTH_RADIUS * Real.sin (A_ - al) = s * (d * ca - qa) := by
    rw [Real.sin_sub, ← hs_def, ← hca_def]
    linear_combination ca * hRsinA + s * hqa_def
  have hrcos : r * Real.cos (B_ - al) = qb * ca + d * s * s := by
    rw [Real.cos_sub, ← hs_def, ← hca_def]
    linear_combination (-ca) * hqb_def + s * hrsinB
  have hrsin : r * Real.sin (B_ - al) = s * (d * ca - qb) := by
    rw [Real.sin_sub, ← hs_def, ← hca_def]
    linear_combination ca * hrsinB + s * hqb_def
  set x1 : ℝ := EARTH_RADIUS * Real.cos (A_ - al) with hx1_def
  set y1 : ℝ := EARTH_RADIUS * Real.sin (A_ - al) with hy1_def
  have hx1d : x1 < d := by
    have h1 : x1 ≤ EARTH_RADIUS := by
      rw [hx1_def]
      have h2 := mul_le_mul_of_nonneg_left (Real.cos_le_one (A_ - al)) hR.le
      linarith only [h2]
    linarith
  have hQx : d + T0 * (x1 - d) = qb * ca + d * s * s := by
    have h1 : (d + T0 * (x1 - d)) * (d * ca - qa) =
        (qb * ca + d * s * s) * (d * ca - qa) := by
      linear_combination (x1 - d) * hT0u + (d * ca - qb) * hRcos +
        (d * qa - d * qb) * hsc
    exact mul_right_cancel₀ hu0.ne' h1
  have hQy : T0 * y1 = s * (d * ca - qb) := by
    have h1 : T0 * y1 * (d * ca - qa) = s * (d * ca - qb) * (d * ca - qa) := by
      linear_combination y1 * hT0u + (d * ca - qb) * hRsin
    exact mul_right_cancel₀ hu0.ne' h1
  have hQnorm : (qb * ca + d * s * s) ^ 2 + (s * (d * ca - qb)) ^ 2 = r ^ 2 := by
    linear_combination (qb ^ 2 + d ^ 2 * s ^ 2) * hsc + hqb2
  have hQx0 : 0 < qb * ca + d * s * s :=
    add_pos (mul_pos hqb0 hca0) (mul_pos (mul_pos hd0 hs0) hs0)
  have hσ2 : σ ^ 2 = 1 := by rcases hσ with rfl | rfl <;> norm_num
  have hcosσ : ∀ w : ℝ, Real.cos (σ * w) = Real.cos w := by
    rcases hσ with rfl | rfl <;> intro w <;> simp
  have hsinσ : ∀ w : ℝ, Real.sin (σ * w) = σ * Real.sin w := by
    rcases hσ with rfl | rfl <;> intro w <;> simp
  have hgA : groundAngle (d / EARTH_RADIUS) al = A_ - al := by
    unfold groundAngle
    rw [← hs_def, div_mul_eq_mul_div, ← hA_def]
  have hgB : groundAngle (d / r) al = B_ - al := by
    unfold groundAngle
    rw [← hs_def, div_mul_eq_mul_div, ← hB_def]
  have hBal1 : -(π / 2) ≤ B_ - al := by linarith
  have hBal2 : B_ - al ≤ π / 2 := by linarith
  have hTeq : qroot (x1 ^ 2 + (σ * y1) ^ 2 + 0 ^ 2 - 2 * d * x1 + d ^ 2)
      (2 * (d * x1 - d ^ 2)) (d ^ 2 - r ^ 2) = T0 := by
    refine (qroot_unique _ _ _ T0 ?_ ?_ ?_ ?_ hT01).symm
    · have h1 : 0 < (x1 - d) ^ 2 := pow_two_pos_of_ne_zero
        (ne_of_lt (show x1 - d < (0 : ℝ) by linarith only [hx1d]))
      have h2 := sq_nonneg (σ * y1)
      have h3 : (x1 - d) ^ 2 = x1 ^ 2 - 2 * d * x1 + d ^ 2 := by ring
      linarith only [h1, h2, h3]
    · linarith only [hr2d2]
    · have h5 : x1 ^ 2 + (σ * y1) ^ 2 + 0 ^ 2 - 2 * d * x1 + d ^ 2 +
          2 * (d * x1 - d ^ 2) + (d ^ 2 - r ^ 2) = EARTH_RADIUS ^ 2 - r ^ 2 := by
        simp only [hx1_def, hy1_def]
        linear_combination EARTH_RADIUS ^ 2 * Real.sin_sq_add_cos_sq (A_ - al) +
          (EARTH_RADIUS * Real.sin (A_ - al)) ^ 2 * hσ2
      linarith only [h5, hR2r2]
    · linear_combination (d + T0 * (x1 - d) + (qb * ca + d * s * s)) * hQx +
        σ ^ 2 * (T0 * y1 + s * (d * ca - qb)) * hQy +
        (s * (d * ca - qb)) ^ 2 * hσ2 + hQnorm
  have hPnorm : (qb * ca + d * s * s) ^ 2 + (σ * (s * (d * ca - qb))) ^ 2 = r ^ 2 := by
    linear_combination (s * (d * ca - qb)) ^ 2 * hσ2 + hQnorm
  have h8 : s * (d * ca - qb) / r = Real.sin (B_ - al) := by
    rw [← hrsin, mul_comm, mul_div_assoc, div_self hr0.ne', mul_one]
  rw [hgA, hgB]
  constructor
  · simp only [forward_parallax]
    rw [show smul3 (EARTH_RADIUS + sat_alt) (lonlat2xyz 0 0) =
        ((d : ℝ), (0 : ℝ), (0 : ℝ)) from by simp [lonlat2xyz, smul3, hd_def]]
    rw [show smul3 EARTH_RADIUS (lonlat2xyz (σ * (A_ - al)) 0) =
        ((x1 : ℝ), σ * y1, (0 : ℝ)) from by
      simp only [lonlat2xyz, smul3, Real.cos_zero, Real.sin_zero, one_mul, mul_zero,
        hcosσ, hsinσ, hx1_def, hy1_def, Prod.mk.injEq]
      exact ⟨trivial, by ring, trivial⟩]
    rw [← hr_def, parallaxT_xaxis, hTeq]
    rw [show add3 ((d : ℝ), (0 : ℝ), (0 : ℝ))
        (smul3 T0 (sub3 ((x1 : ℝ), σ * y1, (0 : ℝ)) ((d : ℝ), (0 : ℝ), (0 : ℝ)))) =
        ((qb * ca + d * s * s : ℝ), σ * (s * (d * ca - qb)), (0 : ℝ)) from by
      simp only [add3, smul3, sub3, Prod.mk.injEq]
      refine ⟨by linear_combination hQx, by linear_combination σ * hQy, by ring⟩]
    simp only [Prod.mk.injEq]
    refine ⟨?_, ?_⟩
    · rw [xyz2lon_eq_arcsin _ (le_of_lt hQx0)]
      show Real.arcsin (σ * (s * (d * ca - qb)) /
          Real.sqrt ((qb * ca + d * s * s) ^ 2 + (σ * (s * (d * ca - qb))) ^ 2)) =
        σ * (B_ - al)
      rw [hPnorm, Real.sqrt_sq hr0.le, mul_div_assoc, h8]
      rcases hσ with rfl | rfl
      · rw [one_mul, one_mul]
        exact Real.arcsin_sin hBal1 hBal2
      · rw [neg_one_mul, neg_one_mul, Real.arcsin_neg, Real.arcsin_sin hBal1 hBal2]
    · unfold xyz2lat
      show Real.arcsin ((0 : ℝ) / Real.sqrt (dot3
          ((qb * ca + d * s * s : ℝ), σ * (s * (d * ca - qb)), (0 : ℝ))
          ((qb * ca + d * s * s : ℝ), σ * (s * (d * ca - qb)), (0 : ℝ)))) = 0
      rw [zero_div, Real.arcsin_zero]
  · simp only [forward_parallax]
    rw [show smul3 (EARTH_RADIUS + sat_alt) (lonlat2xyz 0 0) =
        ((d : ℝ), (0 : ℝ), (0 : ℝ)) from by simp [lonlat2xyz, smul3, hd_def]]
    rw [show smul3 EARTH_RADIUS (lonlat2xyz 0 (σ * (A_ - al))) =
        ((x1 : ℝ), (0 : ℝ), σ * y1) from by
      simp only [lonlat2xyz, smul3, Real.cos_zero, Real.sin_zero, one_mul, mul_one,
        mul_zero, hcosσ, hsinσ, hx1_def, hy1_def, Prod.mk.injEq]
      exact ⟨trivial, trivial, by ring⟩]
    rw [← hr_def, parallaxT_xaxis]
    rw [show qroot (x1 ^ 2 + 0 ^ 2 + (σ * y1) ^ 2 - 2 * d * x1 + d ^ 2)
        (2 * (d * x1 - d ^ 2)) (d ^ 2 - r ^ 2) = T0 from by
      rw [qroot_congr (show x1 ^ 2 + 0 ^ 2 + (σ * y1) ^ 2 - 2 * d * x1 + d ^ 2 =
        x1 ^ 2 + (σ * y1) ^ 2 + 0 ^ 2 - 2 * d * x1 + d ^ 2 from by ring) rfl rfl]
      exact hTeq]
    rw [show add3 ((d : ℝ), (0 : ℝ), (0 : ℝ))
        (smul3 T0 (sub3 ((x1 : ℝ), (0 : ℝ), σ * y1) ((d : ℝ), (0 : ℝ), (0 : ℝ)))) =
        ((qb * ca + d * s * s : ℝ), (0 : ℝ), σ * (s * (d * ca - qb))) from by
      simp only [add3, smul3, sub3, Prod.mk.injEq]
      refine ⟨by linear_combination hQx, by ring, by linear_combination σ * hQy⟩]
    simp only [Prod.mk.injEq]
    refine ⟨?_, ?_⟩
    · unfold xyz2lon
      show Complex.arg (Complex.ofReal (qb * ca + d * s * s) +
          Complex.ofReal 0 * Complex.I) = 0
      simp only [Complex.ofReal_zero, zero_mul, add_zero]
      exact Complex.arg_ofReal_of_nonneg hQx0.le
    · unfold xyz2lat
      show Real.arcsin (σ * (s * (d * ca - qb)) / Real.sqrt (dot3
          ((qb * ca + d * s * s : ℝ), (0 : ℝ), σ * (s * (d * ca - qb)))
          ((qb * ca + d * s * s : ℝ), (0 : ℝ), σ * (s * (d * ca - qb))))) =
        σ * (B_ - al)
      have hdotP : dot3 ((qb * ca + d * s * s : ℝ), (0 : ℝ), σ * (s * (d * ca - qb)))
          ((qb * ca + d * s * s : ℝ), (0 : ℝ), σ * (s * (d * ca - qb))) = r ^ 2 := by
        unfold dot3
        linear_combination hPnorm
      rw [hdotP, Real.sqrt_sq hr0.le, mul_div_assoc, h8]
      rcases hσ with rfl | rfl
      · rw [one_mul, one_mul]
        exact Real.arcsin_sin hBal1 hBal2
      · rw [neg_one_mul, neg_one_mul, Real.arcsin_neg, Real.arcsin_sin hBal1 hBal2]



theorem disp_rep (sat_alt h t : ℝ) (hh : 0 < h) (hha : h < sat_alt)
    (halt : 5 * EARTH_RADIUS ≤ sat_alt) (ht0 : 0 < |t|) (ht : |t| ≤ 1 / 2) :
    ∃ al : ℝ, (0 < al ∧
        al ≤ Real.arcsin (EARTH_RADIUS / ((EARTH_RADIUS + sat_alt) * Real.sqrt 2))) ∧
      groundAngle ((EARTH_RADIUS + sat_alt) / EARTH_RADIUS) al = |t| ∧
      |t - (forward_parallax 0 0 sat_alt t 0 h).1| =
        groundAngle ((EARTH_RADIUS + sat_alt) / EARTH_RADIUS) al -
          groundAngle ((EARTH_RADIUS + sat_alt) / (EARTH_RADIUS + h)) al ∧
      |t - (forward_parallax 0 0 sat_alt 0 t h).2| =
        groundAngle ((EARTH_RADIUS + sat_alt) / EARTH_RADIUS) al -
          groundAngle ((EARTH_RADIUS + sat_alt) / (EARTH_RADIUS + h)) al := by
  have hR : (0 : ℝ) < EARTH_RADIUS := by norm_num [EARTH_RADIUS]
  have hpi3 := Real.pi_gt_three
  obtain ⟨ham0, ham14, hamsin, hamk1, hamG⟩ := amax_facts sat_alt halt
  have hd0 : 0 < EARTH_RADIUS + sat_alt := by linarith
  have hk1 : 1 < (EARTH_RADIUS + sat_alt) / EARTH_RADIUS := by
    rw [lt_div_iff hR]
    linarith
  have hmaxpi : Real.arcsin (EARTH_RADIUS / ((EARTH_RADIUS + sat_alt) * Real.sqrt 2)) ≤
      π / 2 := by
    linarith only [ham14, hpi3]
  obtain ⟨al, halmem, halval⟩ := groundAngle_exists
    ((EARTH_RADIUS + sat_alt) / EARTH_RADIUS)
    (Real.arcsin (EARTH_RADIUS / ((EARTH_RADIUS + sat_alt) * Real.sqrt 2))) |t| ham0.le
    ⟨abs_nonneg t, by linarith only [hamG, ht]⟩
  have hal0 : 0 < al := by
    rcases lt_or_eq_of_le halmem.1 with h1 | h1
    · exact h1
    · exfalso
      rw [← h1, groundAngle_zero] at halval
      exact (ne_of_gt ht0) halval.symm
  have hal2 : al < π / 2 := by linarith only [halmem.2, ham14, hpi3]
  have hs2 : (0 : ℝ) < Real.sqrt 2 := Real.sqrt_pos.mpr (by norm_num)
  have hsal0 : 0 < Real.sin al := Real.sin_pos_of_pos_of_lt_pi hal0 (by linarith)
  have hsinle : Real.sin al ≤
      Real.sin (Real.arcsin (EARTH_RADIUS / ((EARTH_RADIUS + sat_alt) * Real.sqrt 2))) := by
    rcases eq_or_lt_of_le halmem.2 with h1 | h1
    · rw [h1]
    · exact (Real.strictMonoOn_sin ⟨by linarith, by linarith⟩
        ⟨by linarith, hmaxpi⟩ h1).le
  have hbound : 2 * ((EARTH_RADIUS + sat_alt) * Real.sin al) ^ 2 ≤ EARTH_RADIUS ^ 2 := by
    have h1 : (EARTH_RADIUS + sat_alt) * Real.sin al * Real.sqrt 2 ≤
        (EARTH_RADIUS + sat_alt) *
          Real.sin (Real.arcsin (EARTH_RADIUS / ((EARTH_RADIUS + sat_alt) * Real.sqrt 2))) *
          Real.sqrt 2 :=
      mul_le_mul_of_nonneg_right (mul_le_mul_of_nonneg_left hsinle hd0.le) hs2.le
    have h2 : (EARTH_RADIUS + sat_alt) *
        Real.sin (Real.arcsin (EARTH_RADIUS / ((EARTH_RADIUS + sat_alt) * Real.sqrt 2))) *
        Real.sqrt 2 = EARTH_RADIUS := by
      linear_combination hamsin
    have h5 : 0 ≤ (EARTH_RADIUS + sat_alt) * Real.sin al * Real.sqrt 2 :=
      mul_nonneg (mul_nonneg hd0.le hsal0.le) hs2.le
    have h4 : ((EARTH_RADIUS + sat_alt) * Real.sin al * Real.sqrt 2) ^ 2 ≤
        EARTH_RADIUS ^ 2 :=
      pow_le_pow_left h5 (h1.trans_eq h2) 2
    have h7 : Real.sqrt 2 ^ 2 = (2 : ℝ) := Real.sq_sqrt (by norm_num)
    have h6 : ((EARTH_RADIUS + sat_alt) * Real.sin al * Real.sqrt 2) ^ 2 =
        2 * ((EARTH_RADIUS + sat_alt) * Real.sin al) ^ 2 := by
      linear_combination ((EARTH_RADIUS + sat_alt) * Real.sin al) ^ 2 * h7
    linarith only [h4, h6]
  have hk2le : groundAngle ((EARTH_RADIUS + sat_alt) / (EARTH_RADIUS + h)) al ≤
      groundAngle ((EARTH_RADIUS + sat_alt) / EARTH_RADIUS) al := by
    unfold groundAngle
    have hstep : (EARTH_RADIUS + sat_alt) / (EARTH_RADIUS + h) ≤
        (EARTH_RADIUS + sat_alt) / EARTH_RADIUS := by
      rw [div_le_div_iff (by linarith) hR]
      exact mul_le_mul_of_nonneg_left (by linarith) hd0.le
    exact sub_le_sub_right
      (Real.monotone_arcsin (mul_le_mul_of_nonneg_right hstep hsal0.le)) al
  have htne : t ≠ 0 := by
    intro he
    rw [he, abs_zero] at ht0
    exact lt_irrefl 0 ht0
  rcases htne.lt_or_lt with hneg | hpos
  · obtain ⟨hb1, hb2⟩ := fp_axes sat_alt h al (-1) hh hha hal0 hal2 hbound (Or.inr rfl)
    have habs_t : |t| = -t := abs_of_neg hneg
    have hinput : (-1 : ℝ) * groundAngle ((EARTH_RADIUS + sat_alt) / EARTH_RADIUS) al = t := by
      rw [halval, habs_t]
      ring
    rw [hinput] at hb1 hb2
    have ht9 : t = -groundAngle ((EARTH_RADIUS + sat_alt) / EARTH_RADIUS) al := by
      rw [halval, habs_t]
      ring
    have hfst : (forward_parallax 0 0 sat_alt t 0 h).1 =
        -1 * groundAngle ((EARTH_RADIUS + sat_alt) / (EARTH_RADIUS + h)) al := by
      rw [hb1]
    have hsnd : (forward_parallax 0 0 sat_alt 0 t h).2 =
        -1 * groundAngle ((EARTH_RADIUS + sat_alt) / (EARTH_RADIUS + h)) al := by
      rw [hb2]
    refine ⟨al, ⟨hal0, halmem.2⟩, halval, ?_, ?_⟩
    · rw [hfst, ht9, show -groundAngle ((EARTH_RADIUS + sat_alt) / EARTH_RADIUS) al -
          -1 * groundAngle ((EARTH_RADIUS + sat_alt) / (EARTH_RADIUS + h)) al =
          -(groundAngle ((EARTH_RADIUS + sat_alt) / EARTH_RADIUS) al -
            groundAngle ((EARTH_RADIUS + sat_alt) / (EARTH_RADIUS + h)) al) from by ring,
        abs_neg]
      exact abs_of_nonneg (sub_nonneg.mpr hk2le)
    · rw [hsnd, ht9, show -groundAngle ((EARTH_RADIUS + sat_alt) / EARTH_RADIUS) al -
          -1 * groundAngle ((EARTH_RADIUS + sat_alt) / (EARTH_RADIUS + h)) al =
          -(groundAngle ((EARTH_RADIUS + sat_alt) / EARTH_RADIUS) al -
            groundAngle ((EARTH_RADIUS + sat_alt) / (EARTH_RADIUS + h)) al) from by ring,
        abs_neg]
      exact abs_of_nonneg (sub_nonneg.mpr hk2le)
  · obtain ⟨hb1, hb2⟩ := fp_axes sat_alt h al 1 hh hha hal0 hal2 hbound (Or.inl rfl)
    have habs_t : |t| = t := abs_of_pos hpos
    have hinput : (1 : ℝ) * groundAngle ((EARTH_RADIUS + sat_alt) / EARTH_RADIUS) al = t := by
      rw [halval, habs_t]
      ring
    rw [hinput] at hb1 hb2
    have ht9 : t = groundAngle ((EARTH_RADIUS + sat_alt) / EARTH_RADIUS) al :=
      (halval.trans habs_t).symm
    have hfst : (forward_parallax 0 0 sat_alt t 0 h).1 =
        1 * groundAngle ((EARTH_RADIUS + sat_alt) / (EARTH_RADIUS + h)) al := by
      rw [hb1]
    have hsnd : (forward_parallax 0 0 sat_alt 0 t h).2 =
        1 * groundAngle ((EARTH_RADIUS + sat_alt) / (EARTH_RADIUS + h)) al := by
      rw [hb2]
    refine ⟨al, ⟨hal0, halmem.2⟩, halval, ?_, ?_⟩
    · rw [hfst, ht9, one_mul]
      exact abs_of_nonneg (sub_nonneg.mpr hk2le)
    · rw [hsnd, ht9, one_mul]
      exact abs_of_nonneg (sub_nonneg.mpr hk2le)


theorem disp_mono_aux (sat_alt h t1 t2 : ℝ) (hh : 0 < h) (hha : h < sat_alt)
    (halt : 5 * EARTH_RADIUS ≤ sat_alt) (h1 : 0 < |t1|) (h12 : |t1| < |t2|)
    (h2 : |t2| ≤ 1 / 2) :
    |t1 - (forward_parallax 0 0 sat_alt t1 0 h).1| <
      |t2 - (forward_parallax 0 0 sat_alt t2 0 h).1| ∧
    |t1 - (forward_parallax 0 0 sat_alt 0 t1 h).2| <
      |t2 - (forward_parallax 0 0 sat_alt 0 t2 h).2| := by
  have hR : (0 : ℝ) < EARTH_RADIUS := by norm_num [EARTH_RADIUS]
  have hpi3 := Real.pi_gt_three
  obtain ⟨al1, ⟨hal10, hal1max⟩, hval1, hdisp1a, hdisp1b⟩ :=
    disp_rep sat_alt h t1 hh hha halt h1 (by linarith)
  obtain ⟨al2, ⟨hal20, hal2max⟩, hval2, hdisp2a, hdisp2b⟩ :=
    disp_rep sat_alt h t2 hh hha halt (by linarith) h2
  obtain ⟨ham0, ham14, hamsin, hamk1, hamG⟩ := amax_facts sat_alt halt
  have hd0 : 0 < EARTH_RADIUS + sat_alt := by linarith
  have hk1 : 1 < (EARTH_RADIUS + sat_alt) / EARTH_RADIUS := by
    rw [lt_div_iff hR]
    linarith
  have hk2 : 0 < (EARTH_RADIUS + sat_alt) / (EARTH_RADIUS + h) :=
    div_pos hd0 (by linarith)
  have hk21 : (EARTH_RADIUS + sat_alt) / (EARTH_RADIUS + h) <
      (EARTH_RADIUS + sat_alt) / EARTH_RADIUS := by
    rw [div_lt_div_iff (by linarith) hR]
    have h3 := mul_lt_mul_of_pos_left
      (show EARTH_RADIUS < EARTH_RADIUS + h by linarith) hd0
    linarith only [h3]
  have hmaxpi : Real.arcsin (EARTH_RADIUS / ((EARTH_RADIUS + sat_alt) * Real.sqrt 2)) ≤
      π / 2 := by
    linarith only [ham14, hpi3]
  have hmono := groundAngle_strictMonoOn ((EARTH_RADIUS + sat_alt) / EARTH_RADIUS)
    (Real.arcsin (EARTH_RADIUS / ((EARTH_RADIUS + sat_alt) * Real.sqrt 2)))
    hk1 ham0.le hmaxpi hamk1
  have hmonoD := groundAngle_diff_strictMonoOn ((EARTH_RADIUS + sat_alt) / EARTH_RADIUS)
    ((EARTH_RADIUS + sat_alt) / (EARTH_RADIUS + h))
    (Real.arcsin (EARTH_RADIUS / ((EARTH_RADIUS + sat_alt) * Real.sqrt 2)))
    hk2 hk21 ham0.le hmaxpi hamk1
  have hmem1 : al1 ∈ Set.Icc (0 : ℝ)
      (Real.arcsin (EARTH_RADIUS / ((EARTH_RADIUS + sat_alt) * Real.sqrt 2))) :=
    ⟨hal10.le, hal1max⟩
  have hmem2 : al2 ∈ Set.Icc (0 : ℝ)
      (Real.arcsin (EARTH_RADIUS / ((EARTH_RADIUS + sat_alt) * Real.sqrt 2))) :=
    ⟨hal20.le, hal2max⟩
  have hal12 : al1 < al2 := by
    by_contra hcon
    push_neg at hcon
    have h4 := hmono.monotoneOn hmem2 hmem1 hcon
    rw [hval1, hval2] at h4
    linarith only [h4, h12]
  have h5 := hmonoD hmem1 hmem2 hal12
  constructor
  · rw [hdisp1a, hdisp2a]
    exact h5
  · rw [hdisp1b, hdisp2b]
    exact h5

/-- Claim C2: with the satellite over longitude 0, latitude 0 and a constant
finite cloud height, forward_parallax moves every pixel toward the
sub-satellite point (the corrected longitude and latitude are no larger in
absolute value than the originals), it displaces nothing exactly at the
sub-satellite point, and the displacement magnitude strictly increases with
distance from the sub-satellite point along the equator axis and along the
meridian axis. -/
theorem claim_C2 (sat_alt h : ℝ) (hh : 0 < h) (hha : h < sat_alt)
    (halt : 5 * EARTH_RADIUS ≤ sat_alt) :
    (∀ lon lat : ℝ, |lon| < π / 2 → |lat| < π / 2 →
      |(forward_parallax 0 0 sat_alt lon lat h).1| ≤ |lon| ∧
      |(forward_parallax 0 0 sat_alt lon lat h).2| ≤ |lat|) ∧
    (∀ lon lat : ℝ, |lon| < π / 2 → |lat| < π / 2 →
      (forward_parallax 0 0 sat_alt lon lat h = (lon, lat) ↔ lon = 0 ∧ lat = 0)) ∧
    (∀ t1 t2 : ℝ, 0 < |t1| → |t1| < |t2| → |t2| ≤ 1 / 2 →
      |t1 - (forward_parallax 0 0 sat_alt t1 0 h).1| <
        |t2 - (forward_parallax 0 0 sat_alt t2 0 h).1|) ∧
    (∀ t1 t2 : ℝ, 0 < |t1| → |t1| < |t2| → |t2| ≤ 1 / 2 →
      |t1 - (forward_parallax 0 0 sat_alt 0 t1 h).2| <
        |t2 - (forward_parallax 0 0 sat_alt 0 t2 h).2|) := by
  have hR : (0 : ℝ) < EARTH_RADIUS := by norm_num [EARTH_RADIUS]
  have hpi3 := Real.pi_gt_three
  refine ⟨?_, ?_, ?_, ?_⟩
  · intro lon lat hlon hlat
    exact (forward_parallax_pixel sat_alt h lon lat hh hha hlon hlat).1
  · intro lon lat hlon hlat
    constructor
    · intro heq
      by_cases hl0 : lon = 0
      · refine ⟨hl0, ?_⟩
        by_contra hlat0
        have hstrict := (forward_parallax_pixel sat_alt h lon lat hh hha hlon hlat).2.2 hlat0
        have hsnd : (forward_parallax 0 0 sat_alt lon lat h).2 = lat := by rw [heq]
        rw [hsnd] at hstrict
        exact lt_irrefl _ hstrict
      · exfalso
        have hstrict := (forward_parallax_pixel sat_alt h lon lat hh hha hlon hlat).2.1 hl0
        have hfst : (forward_parallax 0 0 sat_alt lon lat h).1 = lon := by rw [heq]
        rw [hfst] at hstrict
        exact lt_irrefl _ hstrict
    · rintro ⟨h1, h2⟩
      rw [h1, h2]
      exact forward_parallax_at_ssp 0 0 sat_alt h (by linarith) (by linarith)
        ⟨by linarith, by linarith⟩ (by rw [abs_zero]; linarith)
  · intro t1 t2 h1 h12 h2
    exact (disp_mono_aux sat_alt h t1 t2 hh hha halt h1 h12 h2).1
  · intro t1 t2 h1 h12 h2
    exact (disp_mono_aux sat_alt h t1 t2 hh hha halt h1 h12 h2).2

/-- Witness for claim C2 at a geostationary-like altitude of 35786000 m and a
cloud height of 10000 m: the sub-satellite pixel is the unique fixed point,
and the equator-axis displacement at longitude 1/4 rad is strictly smaller
than at longitude 1/2 rad. -/
theorem claim_C2_witness :
    (0 : ℝ) < 10000 ∧ (10000 : ℝ) < 35786000 ∧
    5 * EARTH_RADIUS ≤ (35786000 : ℝ) ∧
    (forward_parallax 0 0 35786000 0 0 10000 = (0, 0) ↔ (0 : ℝ) = 0 ∧ (0 : ℝ) = 0) ∧
    |(1 / 4 : ℝ) - (forward_parallax 0 0 35786000 (1 / 4) 0 10000).1| <
      |(1 / 2 : ℝ) - (forward_parallax 0 0 35786000 (1 / 2) 0 10000).1| := by
  have hc := claim_C2 35786000 10000 (by norm_num) (by norm_num)
    (by norm_num [EARTH_RADIUS])
  have hpi3 := Real.pi_gt_three
  refine ⟨by norm_num, by norm_num, by norm_num [EARTH_RADIUS], ?_, ?_⟩
  · exact hc.2.1 0 0 (by rw [abs_zero]; linarith) (by rw [abs_zero]; linarith)
  · refine hc.2.2.1 (1 / 4) (1 / 2) ?_ ?_ ?_
    · rw [show |(1 / 4 : ℝ)| = 1 / 4 from abs_of_pos (by norm_num)]
      norm_num
    · rw [show |(1 / 4 : ℝ)| = 1 / 4 from abs_of_pos (by norm_num),
        show |(1 / 2 : ℝ)| = 1 / 2 from abs_of_pos (by norm_num)]
      norm_num
    · rw [show |(1 / 2 : ℝ)| = 1 / 2 from abs_of_pos (by norm_num)]

end Parallax
